import Mathlib

/-!
Shallow embedding of the frame-stepped simulation core of the survival
roguelike in this repository.  The embedded code lives in
src/components/GameCanvas.tsx (the tick orchestrator updateGame),
src/unnamed/part_001 (the gameLogic module: getDistance, normalizeVector,
checkCollision, spawnEnemy, updateEnemyBehavior, createProjectile) and
src/unnamed/part_000 (the constants module).  Geometry is over the real
numbers, frame counters and hit budgets over the integers, and every call
of the Math.random generator is an explicit oracle argument.  Purely
cosmetic data (sprites, particle systems, damage-text records, audio
calls, screen shake, and the random id strings of drops, projectiles and
visual effects) is not modelled; entity ids that the logic reads back
(enemy ids stored in projectile hit-sets and homing target ids) are kept
as strings.
-/

open scoped Classical

/-- Two dimensional position or velocity vector (interface Vector2D in src/types.ts). -/
structure Vec2 where
  x : ℝ
  y : ℝ

/-- Euclidean distance between two points (getDistance in src/unnamed/part_001). -/
noncomputable def getDistance (v1 v2 : Vec2) : ℝ :=
  Real.sqrt ((v1.x - v2.x) * (v1.x - v2.x) + (v1.y - v2.y) * (v1.y - v2.y))

/-- Length of a vector, the local value len in normalizeVector. -/
noncomputable def vecLen (v : Vec2) : ℝ :=
  Real.sqrt (v.x * v.x + v.y * v.y)

/-- Normalization with the zero-vector guard (normalizeVector in src/unnamed/part_001). -/
noncomputable def normalizeVector (v : Vec2) : Vec2 :=
  if vecLen v = 0 then ⟨0, 0⟩ else ⟨v.x / vecLen v, v.y / vecLen v⟩

/-- Circle overlap test (checkCollision in src/unnamed/part_001).  The source
takes two entity records and reads their pos and radius fields; here the two
fields of each entity are passed directly. -/
def checkCollision (p1 : Vec2) (r1 : ℝ) (p2 : Vec2) (r2 : ℝ) : Prop :=
  getDistance p1 p2 < r1 + r2

/-- Enemy archetypes (enum EnemyType in src/types.ts). -/
inductive EnemyType where
  | PEASANT
  | CULTIST
  | CHARGER
  | ARCHER
  | BOSS
deriving DecidableEq

/-- AI state tags of the Enemy record (src/types.ts). -/
inductive AIState where
  | CHASING
  | CHARGING
  | PREPARING
  | COOLDOWN
  | FLEEING
deriving DecidableEq

/-- Projectile ownership tag. -/
inductive Owner where
  | PLAYER
  | ENEMY
deriving DecidableEq

/-- Visual type tags of projectiles (type ProjectileVisual in src/types.ts). -/
inductive ProjectileVisual where
  | DEFAULT
  | SWORD
  | PALM
  | NOTE
  | SLASH
  | DAGGER
  | KUNAI
  | STAFF
  | SHOCKWAVE
  | ARROW
deriving DecidableEq

/-- Weapon kinds (enum WeaponType in src/types.ts). -/
inductive WeaponType where
  | SWORD_AURA
  | PALM_STRIKE
  | SOUND_WAVE
  | GOLDEN_BELL
  | SPIRIT_DAGGER
  | KUNAI
  | GUQIN
  | BLADE
  | STAFF
deriving DecidableEq

/-- Enemy record (interface Enemy in src/types.ts).  The optional fields
state, stateTimer, targetPos and flashTimer are always initialised by
spawnEnemy, except targetPos which starts absent. -/
structure Enemy where
  id : String
  pos : Vec2
  radius : ℝ
  rotation : ℝ
  etype : EnemyType
  hp : ℝ
  maxHp : ℝ
  damage : ℝ
  speed : ℝ
  isElite : Bool
  state : AIState
  stateTimer : ℝ
  targetPos : Option Vec2
  flashTimer : ℤ

/-- Projectile record (interface Projectile in src/types.ts).  The random id
string of a projectile is never read by the simulation logic and is not
modelled; hitIds holds enemy id strings.  The optional orbit fields are
modelled as plain reals, with the JS falsy fallback written out where the
source uses it. -/
structure Projectile where
  pos : Vec2
  radius : ℝ
  rotation : ℝ
  damage : ℝ
  velocity : Vec2
  duration : ℤ
  pierce : ℤ
  hitIds : Finset String
  isOrbiting : Bool
  orbitAngle : ℝ
  orbitDistance : ℝ
  owner : Owner
  visualType : ProjectileVisual
  targetId : Option String

/-- Stat block of the player (interface PlayerStats in src/types.ts). -/
structure PlayerStats where
  might : ℝ
  cooldown : ℝ
  area : ℝ
  speed : ℝ
  magnet : ℝ
  dodgeChance : ℝ
  frenzyEfficiency : ℝ
  expMultiplier : ℝ

/-- Equipped weapon record (interface Weapon in src/types.ts). -/
structure Weapon where
  wtype : WeaponType
  level : ℕ
  cooldownTimer : ℝ
  baseCooldown : ℝ
  damage : ℝ
  area : ℝ

/-- Player record (interface Player in src/types.ts). -/
structure Player where
  pos : Vec2
  radius : ℝ
  rotation : ℝ
  hp : ℝ
  maxHp : ℝ
  speed : ℝ
  exp : ℝ
  level : ℕ
  nextLevelExp : ℝ
  bloodEssence : ℝ
  maxBloodEssence : ℝ
  isFrenzy : Bool
  frenzyTimer : ℤ
  stats : PlayerStats
  weapons : List Weapon
  dashTimer : ℤ
  maxDashTimer : ℤ

/-- Drop kinds; the source uses the string union BLOOD, HEALTH, CHEST, of
which only BLOOD and CHEST are ever created. -/
inductive DropKind where
  | BLOOD
  | HEALTH
  | CHEST
deriving DecidableEq

/-- Drop record (interface Drop in src/types.ts), minus its cosmetic random id. -/
structure Drop where
  pos : Vec2
  radius : ℝ
  value : ℝ
  dtype : DropKind
  rotation : ℝ

/-- World width (WORLD_WIDTH in src/unnamed/part_000). -/
def WORLD_WIDTH : ℝ := 5000

/-- World height (WORLD_HEIGHT in src/unnamed/part_000). -/
def WORLD_HEIGHT : ℝ := 5000

/-- Frenzy activation threshold (FRENZY_THRESHOLD in src/unnamed/part_000). -/
def FRENZY_THRESHOLD : ℝ := 100

/-- Frenzy drain per frame (FRENZY_DRAIN_RATE in src/unnamed/part_000). -/
def FRENZY_DRAIN_RATE : ℝ := 0.5

/-- The drop created for a dead enemy, from section 6 of updateGame
(src/components/GameCanvas.tsx lines 553 to 573): a chest when the enemy is
elite or of boss archetype, otherwise a blood orb; the value field is 50 for
the boss archetype, 5 for a cultist and 1 otherwise. -/
def dropOf (e : Enemy) : Drop :=
  let dt : DropKind := if e.isElite = true ∨ e.etype = EnemyType.BOSS then .CHEST else .BLOOD
  { pos := e.pos
    radius := if dt = .CHEST then 15 else 5
    value := if e.etype = EnemyType.BOSS then 50 else if e.etype = EnemyType.CULTIST then 5 else 1
    dtype := dt
    rotation := 0 }

/-- Score awarded for a kill, from section 6 of updateGame. -/
def scoreOf (e : Enemy) : ℕ :=
  if e.isElite = true then 100 else 10

/-- Cleanup of dead enemies, section 6 of updateGame
(src/components/GameCanvas.tsx lines 553 to 573).  The source iterates the
enemy array from the last index downward, and for each enemy with hp at or
below zero pushes one drop, adds the kill score, and splices the enemy
out; this recursion produces the same surviving list, the same drop order
(later array indices first) and the same score total.  The result triple is
(surviving enemies, drops pushed this pass in push order, score added). -/
noncomputable def cleanupDeadEnemies : List Enemy → List Enemy × List Drop × ℕ
  | [] => ([], [], 0)
  | e :: rest =>
      let r := cleanupDeadEnemies rest
      if e.hp ≤ 0 then (r.1, r.2.1 ++ [dropOf e], r.2.2 + scoreOf e)
      else (e :: r.1, r.2.1, r.2.2)

/-- A dead enemy produces a chest exactly when it is elite or a boss. -/
theorem dropOf_chest_iff (e : Enemy) :
    (dropOf e).dtype = DropKind.CHEST ↔ (e.isElite = true ∨ e.etype = EnemyType.BOSS) := by
  by_cases h : e.isElite = true ∨ e.etype = EnemyType.BOSS <;> simp [dropOf, h]

/-- C10: every enemy whose hp has dropped to zero or below is removed by the
cleanup pass of the same tick and produces exactly one drop at its death
position, a chest exactly when the enemy was elite or of boss archetype and
otherwise a blood orb whose value is 50 for the boss archetype, 5 for a
cultist and 1 otherwise; each kill adds 100 to the score when the enemy was
elite and 10 otherwise.  The survivors are exactly the enemies with positive
hp in their original order, the drops are one per dead enemy, and the score
increment is the sum of the per-kill awards. -/
theorem cleanup_dead_enemies_spec (es : List Enemy) :
    (cleanupDeadEnemies es).1 = es.filter (fun e => !decide (e.hp ≤ 0))
    ∧ (cleanupDeadEnemies es).2.1
        = ((es.filter (fun e => decide (e.hp ≤ 0))).map dropOf).reverse
    ∧ (cleanupDeadEnemies es).2.2
        = ((es.filter (fun e => decide (e.hp ≤ 0))).map scoreOf).sum
    ∧ (∀ e : Enemy, (dropOf e).pos = e.pos
        ∧ ((dropOf e).dtype = DropKind.CHEST ↔ (e.isElite = true ∨ e.etype = EnemyType.BOSS))
        ∧ (dropOf e).value
            = (if e.etype = EnemyType.BOSS then 50
               else if e.etype = EnemyType.CULTIST then 5 else 1)
        ∧ scoreOf e = (if e.isElite = true then 100 else 10)) := by
  refine ⟨?_, ?_, ?_, ?_⟩
  · induction es with
    | nil => simp [cleanupDeadEnemies]
    | cons e rest ih =>
      by_cases h : e.hp ≤ 0 <;> simp [cleanupDeadEnemies, h, ih]
  · induction es with
    | nil => simp [cleanupDeadEnemies]
    | cons e rest ih =>
      by_cases h : e.hp ≤ 0 <;> simp [cleanupDeadEnemies, h, ih]
  · induction es with
    | nil => simp [cleanupDeadEnemies]
    | cons e rest ih =>
      by_cases h : e.hp ≤ 0 <;> simp [cleanupDeadEnemies, h, ih, Nat.add_comm]
  · intro e
    exact ⟨rfl, dropOf_chest_iff e, rfl, rfl⟩

/-- Damage event reported to the rendering collaborator when a player
projectile hits an enemy: the applied field is the amount subtracted from
the enemy hp and the displayed field is the number passed to
spawnDamageText. -/
structure DamageEvent where
  targetId : String
  applied : ℝ
  displayed : ℝ
  isCrit : Bool

/-- Outcome of an enemy projectile reaching the player: either a dodge or a
damage application. -/
inductive PlayerHitEvent where
  | dodged
  | damaged (amount : ℝ)

/-- Resolution of one player-owned projectile against one enemy, from the
PLAYER branch of section 5 of updateGame (src/components/GameCanvas.tsx
lines 493 to 526): skip when the enemy id is in the hit-set; on overlap
subtract the projectile damage from the enemy hp, insert the id, decrement
pierce, set the hit flash, roll the 10 percent crit (which doubles only the
displayed number), and push the enemy by a length-10 knockback away from
the projectile.  The critRoll argument is the value of the Math.random
call of this pair. -/
noncomputable def resolvePlayerHit (p : Projectile) (e : Enemy) (critRoll : ℝ) :
    Projectile × Enemy × Option DamageEvent :=
  if e.id ∈ p.hitIds then (p, e, none)
  else if checkCollision p.pos p.radius e.pos e.radius then
    let finalDamage := if critRoll < 0.1 then p.damage * 2 else p.damage
    let kbDir := normalizeVector ⟨e.pos.x - p.pos.x, e.pos.y - p.pos.y⟩
    ({ p with hitIds := insert e.id p.hitIds, pierce := p.pierce - 1 },
     { e with hp := e.hp - p.damage, flashTimer := 5,
              pos := ⟨e.pos.x + kbDir.x * 10, e.pos.y + kbDir.y * 10⟩ },
     some { targetId := e.id, applied := p.damage, displayed := finalDamage,
            isCrit := decide (critRoll < 0.1) })
  else (p, e, none)

/-- Iteration of a player-owned projectile over the enemy list inside one
tick (the for-of loop of the PLAYER branch).  Each list entry carries the
enemy and the oracle value of the crit roll that would be drawn for it.
Returns the projectile after the pass, the updated enemies in order, and
the damage events in order. -/
noncomputable def playerHitPass :
    Projectile → List (Enemy × ℝ) → Projectile × List Enemy × List DamageEvent
  | p, [] => (p, [], [])
  | p, (e, r) :: rest =>
      let s := resolvePlayerHit p e r
      let t := playerHitPass s.1 rest
      (t.1, s.2.1 :: t.2.1, s.2.2.toList ++ t.2.2)

/-- Resolution of an enemy-owned projectile against the player, from the
ENEMY branch of section 5 of updateGame (src/components/GameCanvas.tsx
lines 528 to 544): on overlap, a dodge roll below the dodge chance destroys
the projectile (pierce forced to 0) without damage, otherwise the damage is
applied to the player and the projectile is destroyed the same way. -/
noncomputable def resolveEnemyProjectile (p : Projectile) (pl : Player) (dodgeRoll : ℝ) :
    Projectile × Player × Option PlayerHitEvent :=
  if checkCollision p.pos p.radius pl.pos pl.radius then
    if dodgeRoll < pl.stats.dodgeChance then
      ({ p with pierce := 0 }, pl, some PlayerHitEvent.dodged)
    else
      ({ p with pierce := 0 }, { pl with hp := pl.hp - p.damage },
       some (PlayerHitEvent.damaged p.damage))
  else (p, pl, none)

/-- Math.atan2, used only for the cosmetic rotation field; the argument of
the complex number x + i y has exactly the atan2 branch behaviour. -/
noncomputable def atan2 (y x : ℝ) : ℝ :=
  Complex.arg ⟨x, y⟩

/-- Steering of a homing dagger toward a live target (the homing block of
section 5, src/components/GameCanvas.tsx lines 453 to 470): interpolate the
current unit direction toward the desired unit direction by the fixed steer
strength 0.2, renormalize, and scale by the previous speed magnitude. -/
noncomputable def steerVelocity (p : Projectile) (target : Enemy) : Vec2 :=
  let dx := target.pos.x - p.pos.x
  let dy := target.pos.y - p.pos.y
  let steerStrength : ℝ := 0.2
  let desiredDir := normalizeVector ⟨dx, dy⟩
  let currentDir := normalizeVector p.velocity
  let newDir : Vec2 := ⟨currentDir.x + (desiredDir.x - currentDir.x) * steerStrength,
                        currentDir.y + (desiredDir.y - currentDir.y) * steerStrength⟩
  let finalDir := normalizeVector newDir
  let speed := Real.sqrt (p.velocity.x * p.velocity.x + p.velocity.y * p.velocity.y)
  ⟨finalDir.x * speed, finalDir.y * speed⟩

/-- Homing update of section 5 (src/components/GameCanvas.tsx lines 448 to
473): only a DAGGER projectile with a stored target id steers, and only
when that id matches a live enemy; otherwise the projectile is returned
unchanged. -/
noncomputable def homingUpdate (p : Projectile) (enemies : List Enemy) : Projectile :=
  match p.targetId with
  | none => p
  | some tid =>
      if p.visualType = ProjectileVisual.DAGGER then
        match enemies.find? (fun e => decide (e.id = tid)) with
        | none => p
        | some target =>
            let v := steerVelocity p target
            { p with velocity := v, rotation := atan2 v.y v.x }
      else p

/-- Position advance of section 5 (src/components/GameCanvas.tsx lines 475
to 486): an orbiting projectile is recomputed from a growing orbit angle
around the player (the JS fallback orbitDistance or 50 is written out),
any other projectile integrates its velocity. -/
noncomputable def projMove (playerPos : Vec2) (p : Projectile) : Projectile :=
  if p.isOrbiting = true then
    let oa := p.orbitAngle + 0.1
    let od := if p.orbitDistance = 0 then 50 else p.orbitDistance
    { p with orbitAngle := oa,
             pos := ⟨playerPos.x + Real.cos oa * od, playerPos.y + Real.sin oa * od⟩,
             rotation := oa }
  else
    { p with pos := ⟨p.pos.x + p.velocity.x, p.pos.y + p.velocity.y⟩ }

/-- Removal condition of the cleanup line of section 5
(src/components/GameCanvas.tsx lines 547 to 548). -/
def shouldRemove (p : Projectile) : Prop :=
  p.duration ≤ 0 ∨ p.pierce ≤ 0 ∨
    (p.isOrbiting = false ∧
      (p.pos.x < -100 ∨ p.pos.x > WORLD_WIDTH + 100 ∨
       p.pos.y < -100 ∨ p.pos.y > WORLD_HEIGHT + 100))

/-- Input of one tick of the projectile loop, as seen by a single
projectile: the player record, the snapshot of the enemy list (each enemy
paired with the oracle crit roll of its pair), and the oracle dodge roll of
a potential player contact. -/
structure ProjTickIn where
  player : Player
  enemies : List (Enemy × ℝ)
  dodgeRoll : ℝ

/-- Result of one tick of the projectile loop for one projectile: the
projectile itself (none when the cleanup line spliced it out), the enemy
list after the pass, the player after the pass, the damage events of the
PLAYER branch and the player-hit outcome of the ENEMY branch. -/
structure ProjTickResult where
  proj : Option Projectile
  enemies : List Enemy
  player : Player
  events : List DamageEvent
  playerHit : Option PlayerHitEvent

/-- The pre-collision phase of a tick of the projectile loop: homing steer,
position advance, duration decrement, in source order. -/
noncomputable def projPre (tin : ProjTickIn) (p : Projectile) : Projectile :=
  let p1 := homingUpdate p (tin.enemies.map Prod.fst)
  let p2 := projMove tin.player.pos p1
  { p2 with duration := p2.duration - 1 }

/-- The projectile state right after the interaction phase of a tick and
before the cleanup line: the pre-collision phase followed by the collision
branch of its owner (the owner tag is never written, so testing it on the
original record matches the source, which mutates one object in place). -/
noncomputable def projectileAfterInteractions (tin : ProjTickIn) (p : Projectile) : Projectile :=
  match p.owner with
  | Owner.PLAYER => (playerHitPass (projPre tin p) tin.enemies).1
  | Owner.ENEMY => (resolveEnemyProjectile (projPre tin p) tin.player tin.dodgeRoll).1

/-- One tick of the projectile loop of section 5 of updateGame for one
projectile, in source order: homing steer, position advance, duration
decrement, owner collision branch, cleanup check. -/
noncomputable def projectileTick (tin : ProjTickIn) (p : Projectile) : ProjTickResult :=
  match p.owner with
  | Owner.PLAYER =>
      let t := playerHitPass (projPre tin p) tin.enemies
      { proj := if shouldRemove t.1 then none else some t.1
        enemies := t.2.1
        player := tin.player
        events := t.2.2
        playerHit := none }
  | Owner.ENEMY =>
      let t := resolveEnemyProjectile (projPre tin p) tin.player tin.dodgeRoll
      { proj := if shouldRemove t.1 then none else some t.1
        enemies := tin.enemies.map Prod.fst
        player := t.2.1
        events := []
        playerHit := t.2.2 }

/-- Lifetime trace of a projectile: ticks are applied until the cleanup
line removes it or the supplied input list ends. -/
noncomputable def projectileRun : Projectile → List ProjTickIn → List ProjTickResult
  | _, [] => []
  | p, tin :: rest =>
      let r := projectileTick tin p
      match r.proj with
      | none => [r]
      | some p2 => r :: projectileRun p2 rest

/-- Number of damage events addressed to a given enemy id in an event list. -/
def countEventsOn (i : String) (evs : List DamageEvent) : ℕ :=
  (evs.filter (fun ev => decide (ev.targetId = i))).length

/-- Number of damage events addressed to a given enemy id over a lifetime
trace. -/
noncomputable def countHitsOn (i : String) (trace : List ProjTickResult) : ℕ :=
  (trace.map (fun r => countEventsOn i r.events)).sum

/-- Skipping branch of the resolver: an enemy whose id is already in the
hit-set is left untouched and produces no event. -/
theorem resolvePlayerHit_skip (p : Projectile) (e : Enemy) (r : ℝ)
    (h : e.id ∈ p.hitIds) : resolvePlayerHit p e r = (p, e, none) := by
  simp [resolvePlayerHit, h]

/-- Missing branch of the resolver: no overlap, nothing happens. -/
theorem resolvePlayerHit_miss (p : Projectile) (e : Enemy) (r : ℝ)
    (h : e.id ∉ p.hitIds) (hc : ¬ checkCollision p.pos p.radius e.pos e.radius) :
    resolvePlayerHit p e r = (p, e, none) := by
  simp [resolvePlayerHit, h, hc]

/-- Hitting branch of the resolver, written out. -/
theorem resolvePlayerHit_hit (p : Projectile) (e : Enemy) (r : ℝ)
    (h : e.id ∉ p.hitIds) (hc : checkCollision p.pos p.radius e.pos e.radius) :
    resolvePlayerHit p e r =
      ({ p with hitIds := insert e.id p.hitIds, pierce := p.pierce - 1 },
       { e with hp := e.hp - p.damage, flashTimer := 5,
                pos := ⟨e.pos.x + (normalizeVector ⟨e.pos.x - p.pos.x, e.pos.y - p.pos.y⟩).x * 10,
                        e.pos.y + (normalizeVector ⟨e.pos.x - p.pos.x, e.pos.y - p.pos.y⟩).y * 10⟩ },
       some { targetId := e.id, applied := p.damage,
              displayed := if r < 0.1 then p.damage * 2 else p.damage,
              isCrit := decide (r < 0.1) }) := by
  simp [resolvePlayerHit, h, hc]

/-- Counting of events addressed to one id distributes over concatenation. -/
theorem countEventsOn_append (i : String) (a b : List DamageEvent) :
    countEventsOn i (a ++ b) = countEventsOn i a + countEventsOn i b := by
  simp [countEventsOn, List.filter_append]

/-- Central bookkeeping bound of the per-tick hit pass: the number of damage
events a pass sends to an id, plus one when the id already sat in the
hit-set, never exceeds the indicator that the id sits in the hit-set after
the pass; in particular a pass damages an id at most once and records it. -/
theorem playerHitPass_hit_bound (i : String) :
    ∀ (l : List (Enemy × ℝ)) (p : Projectile),
      countEventsOn i (playerHitPass p l).2.2 + (if i ∈ p.hitIds then 1 else 0)
        ≤ if i ∈ (playerHitPass p l).1.hitIds then 1 else 0 := by
  intro l
  induction l with
  | nil =>
      intro p
      simp [playerHitPass, countEventsOn]
  | cons er rest ih =>
      intro p
      obtain ⟨e, r⟩ := er
      by_cases hmem : e.id ∈ p.hitIds
      · have hs := resolvePlayerHit_skip p e r hmem
        have hih := ih p
        simp only [playerHitPass, hs, Option.toList_none, List.nil_append]
        exact hih
      · by_cases hc : checkCollision p.pos p.radius e.pos e.radius
        · have hs := resolvePlayerHit_hit p e r hmem hc
          simp only [playerHitPass, hs, Option.toList_some, List.singleton_append]
          set q : Projectile :=
            { p with hitIds := insert e.id p.hitIds, pierce := p.pierce - 1 } with hq
          have hq1 : q.hitIds = insert e.id p.hitIds := by rw [hq]
          have hih := ih q
          have hcount : countEventsOn i
              ({ targetId := e.id, applied := p.damage,
                 displayed := if r < 0.1 then p.damage * 2 else p.damage,
                 isCrit := decide (r < 0.1) } :: (playerHitPass q rest).2.2)
              = (if e.id = i then 1 else 0) + countEventsOn i (playerHitPass q rest).2.2 := by
            by_cases hie : e.id = i <;> simp [countEventsOn, hie, Nat.add_comm]
          rw [hcount]
          by_cases hie : e.id = i
          · have hip : i ∉ p.hitIds := hie ▸ hmem
            have hiq : i ∈ q.hitIds := by
              rw [hq1, ← hie]
              exact Finset.mem_insert_self _ _
            rw [if_pos hie, if_neg hip, if_pos hiq] at *
            generalize (if i ∈ (playerHitPass q rest).1.hitIds then 1 else 0) = D at hih ⊢
            omega
          · have hiff : (i ∈ q.hitIds) ↔ (i ∈ p.hitIds) := by
              rw [hq1, Finset.mem_insert]
              constructor
              · rintro (h | h)
                · exact absurd h.symm hie
                · exact h
              · exact fun h => Or.inr h
            rw [if_neg hie]
            by_cases hip : i ∈ p.hitIds
            · rw [if_pos hip]
              rw [if_pos (hiff.mpr hip)] at hih
              generalize (if i ∈ (playerHitPass q rest).1.hitIds then 1 else 0) = D at hih ⊢
              omega
            · rw [if_neg hip]
              rw [if_neg (fun h => hip (hiff.mp h))] at hih
              generalize (if i ∈ (playerHitPass q rest).1.hitIds then 1 else 0) = D at hih ⊢
              omega
        · have hs := resolvePlayerHit_miss p e r hmem hc
          have hih := ih p
          simp only [playerHitPass, hs, Option.toList_none, List.nil_append]
          exact hih

/-- The homing steer touches only velocity and rotation. -/
theorem homingUpdate_fields (p : Projectile) (es : List Enemy) :
    (homingUpdate p es).hitIds = p.hitIds ∧ (homingUpdate p es).duration = p.duration
    ∧ (homingUpdate p es).pierce = p.pierce ∧ (homingUpdate p es).owner = p.owner := by
  cases ht : p.targetId with
  | none => simp [homingUpdate, ht]
  | some tid =>
      by_cases hv : p.visualType = ProjectileVisual.DAGGER
      · cases h : es.find? (fun e => decide (e.id = tid)) with
        | none => simp [homingUpdate, ht, hv, h]
        | some t => simp [homingUpdate, ht, hv, h]
      · simp [homingUpdate, ht, hv]

/-- The position advance touches only pos, orbitAngle and rotation. -/
theorem projMove_fields (c : Vec2) (p : Projectile) :
    (projMove c p).hitIds = p.hitIds ∧ (projMove c p).duration = p.duration
    ∧ (projMove c p).pierce = p.pierce ∧ (projMove c p).owner = p.owner := by
  by_cases ho : p.isOrbiting = true <;> simp [projMove, ho]

/-- The pre-collision phase preserves the hit-set and the pierce budget and
decrements the duration by one. -/
theorem projPre_fields (tin : ProjTickIn) (p : Projectile) :
    (projPre tin p).hitIds = p.hitIds ∧ (projPre tin p).duration = p.duration - 1
    ∧ (projPre tin p).pierce = p.pierce ∧ (projPre tin p).owner = p.owner := by
  have h1 := homingUpdate_fields p (tin.enemies.map Prod.fst)
  have h2 := projMove_fields tin.player.pos (homingUpdate p (tin.enemies.map Prod.fst))
  unfold projPre
  refine ⟨?_, ?_, ?_, ?_⟩
  · show (projMove tin.player.pos (homingUpdate p (tin.enemies.map Prod.fst))).hitIds = p.hitIds
    rw [h2.1, h1.1]
  · show (projMove tin.player.pos (homingUpdate p (tin.enemies.map Prod.fst))).duration - 1
        = p.duration - 1
    rw [h2.2.1, h1.2.1]
  · show (projMove tin.player.pos (homingUpdate p (tin.enemies.map Prod.fst))).pierce = p.pierce
    rw [h2.2.2.1, h1.2.2.1]
  · show (projMove tin.player.pos (homingUpdate p (tin.enemies.map Prod.fst))).owner = p.owner
    rw [h2.2.2.2, h1.2.2.2]

/-- Equation of the tick for a player-owned projectile. -/
theorem projectileTick_player_eq (tin : ProjTickIn) (p : Projectile)
    (ho : p.owner = Owner.PLAYER) :
    projectileTick tin p =
      { proj := if shouldRemove (playerHitPass (projPre tin p) tin.enemies).1 then none
                else some (playerHitPass (projPre tin p) tin.enemies).1
        enemies := (playerHitPass (projPre tin p) tin.enemies).2.1
        player := tin.player
        events := (playerHitPass (projPre tin p) tin.enemies).2.2
        playerHit := none } := by
  unfold projectileTick
  rw [ho]

/-- Equation of the tick for an enemy-owned projectile. -/
theorem projectileTick_enemy_eq (tin : ProjTickIn) (p : Projectile)
    (ho : p.owner = Owner.ENEMY) :
    projectileTick tin p =
      { proj := if shouldRemove (resolveEnemyProjectile (projPre tin p) tin.player tin.dodgeRoll).1
                then none
                else some (resolveEnemyProjectile (projPre tin p) tin.player tin.dodgeRoll).1
        enemies := tin.enemies.map Prod.fst
        player := (resolveEnemyProjectile (projPre tin p) tin.player tin.dodgeRoll).2.1
        events := []
        playerHit := (resolveEnemyProjectile (projPre tin p) tin.player tin.dodgeRoll).2.2 } := by
  unfold projectileTick
  rw [ho]

/-- The enemy-projectile resolver keeps the hit-set, and either keeps the
pierce (no overlap) or forces it to zero (overlap, dodged or not). -/
theorem resolveEnemyProjectile_fields (p : Projectile) (pl : Player) (roll : ℝ) :
    (resolveEnemyProjectile p pl roll).1.hitIds = p.hitIds
    ∧ ((resolveEnemyProjectile p pl roll).1.pierce = p.pierce
        ∨ (resolveEnemyProjectile p pl roll).1.pierce = 0) := by
  unfold resolveEnemyProjectile
  by_cases hc : checkCollision p.pos p.radius pl.pos pl.radius
  · rw [if_pos hc]
    by_cases hd : roll < pl.stats.dodgeChance
    · rw [if_pos hd]
      exact ⟨rfl, Or.inr rfl⟩
    · rw [if_neg hd]
      exact ⟨rfl, Or.inr rfl⟩
  · rw [if_neg hc]
    exact ⟨rfl, Or.inl rfl⟩

/-- Hit bound of a whole tick: the events of a tick hit a given id at most
once when the id is fresh and never when it is already recorded, and when
the projectile survives the tick the indicator transfers to the surviving
hit-set. -/
theorem projectileTick_hit_bound (i : String) (tin : ProjTickIn) (p : Projectile) :
    (countEventsOn i (projectileTick tin p).events + (if i ∈ p.hitIds then 1 else 0) ≤ 1)
    ∧ (∀ q : Projectile, (projectileTick tin p).proj = some q →
        countEventsOn i (projectileTick tin p).events + (if i ∈ p.hitIds then 1 else 0)
          ≤ if i ∈ q.hitIds then 1 else 0) := by
  have hpre := (projPre_fields tin p).1
  cases ho : p.owner with
  | PLAYER =>
      rw [projectileTick_player_eq tin p ho]
      have hb := playerHitPass_hit_bound i tin.enemies (projPre tin p)
      rw [hpre] at hb
      constructor
      · refine le_trans hb ?_
        by_cases h : i ∈ (playerHitPass (projPre tin p) tin.enemies).1.hitIds <;> simp [h]
      · intro q hq
        by_cases hrem : shouldRemove (playerHitPass (projPre tin p) tin.enemies).1
        · simp [hrem] at hq
        · simp only [hrem, if_neg, not_false_iff, Option.some.injEq] at hq
          rw [← hq]
          exact hb
  | ENEMY =>
      rw [projectileTick_enemy_eq tin p ho]
      have hres := resolveEnemyProjectile_fields (projPre tin p) tin.player tin.dodgeRoll
      constructor
      · simp only [countEventsOn, List.filter_nil, List.length_nil, Nat.zero_add]
        by_cases h : i ∈ p.hitIds <;> simp [h]
      · intro q hq
        by_cases hrem :
            shouldRemove (resolveEnemyProjectile (projPre tin p) tin.player tin.dodgeRoll).1
        · simp [hrem] at hq
        · simp only [hrem, if_neg, not_false_iff, Option.some.injEq] at hq
          have hqh : q.hitIds = p.hitIds := by
            rw [← hq, hres.1, hpre]
          simp only [countEventsOn, List.filter_nil, List.length_nil, Nat.zero_add, hqh]
          exact le_refl _

/-- Hit bound over a whole lifetime trace. -/
theorem projectileRun_hit_bound (i : String) :
    ∀ (ins : List ProjTickIn) (p : Projectile),
      countHitsOn i (projectileRun p ins) + (if i ∈ p.hitIds then 1 else 0) ≤ 1 := by
  intro ins
  induction ins with
  | nil =>
      intro p
      by_cases h : i ∈ p.hitIds <;> simp [projectileRun, countHitsOn, h]
  | cons tin rest ih =>
      intro p
      have hb := projectileTick_hit_bound i tin p
      cases hproj : (projectileTick tin p).proj with
      | none =>
          have heq : projectileRun p (tin :: rest) = [projectileTick tin p] := by
            simp [projectileRun, hproj]
          rw [heq]
          simpa [countHitsOn] using hb.1
      | some p2 =>
          have heq : projectileRun p (tin :: rest)
              = projectileTick tin p :: projectileRun p2 rest := by
            simp [projectileRun, hproj]
          rw [heq]
          have h2 := hb.2 p2 hproj
          have hih := ih p2
          simp only [countHitsOn, List.map_cons, List.sum_cons] at hih ⊢
          generalize hA : countEventsOn i (projectileTick tin p).events = A at h2 ⊢
          generalize ha : (if i ∈ p.hitIds then 1 else 0) = a at h2 ⊢
          generalize hb2 : (if i ∈ p2.hitIds then 1 else 0) = b at h2 hih
          generalize hB :
            ((projectileRun p2 rest).map fun r => countEventsOn i r.events).sum = B at hih ⊢
          omega

/-- C1: for every player-owned projectile and every enemy id, the lifetime
trace of the projectile contains at most one damage event addressed to that
id: the resolver skips an enemy whose id is in the hit-set and on a first
overlap damages it, adds the id, and decrements pierce, so an enemy is
damaged at most once by a given projectile. -/
theorem player_projectile_damages_each_enemy_at_most_once
    (p : Projectile) (ins : List ProjTickIn) (i : String) (h : i ∉ p.hitIds) :
    countHitsOn i (projectileRun p ins) ≤ 1 := by
  have hb := projectileRun_hit_bound i ins p
  rw [if_neg h] at hb
  omega

/-- Initial player of a session, from the setup effect of GameCanvas
(src/components/GameCanvas.tsx lines 115 to 150). -/
noncomputable def samplePlayer : Player :=
  { pos := ⟨2500, 2500⟩, radius := 25, rotation := 0, hp := 100, maxHp := 100,
    speed := 5, exp := 0, level := 1, nextLevelExp := 30,
    bloodEssence := 0, maxBloodEssence := 100, isFrenzy := false, frenzyTimer := 0,
    stats := { might := 1, cooldown := 1, area := 1, speed := 1, magnet := 1,
               dodgeChance := 0, frenzyEfficiency := 1, expMultiplier := 1 },
    weapons := [{ wtype := WeaponType.SWORD_AURA, level := 1, cooldownTimer := 0,
                  baseCooldown := 60, damage := 15, area := 1 }],
    dashTimer := 0, maxDashTimer := 60 }

/-- A level-one orbiting sword projectile as created by createProjectile for
SWORD_AURA at the starting position. -/
noncomputable def sampleSwordProj : Projectile :=
  { pos := ⟨2500, 2500⟩, radius := 12, rotation := 0, damage := 15,
    velocity := ⟨0, 0⟩, duration := 180, pierce := 999, hitIds := ∅,
    isOrbiting := true, orbitAngle := 0, orbitDistance := 100,
    owner := Owner.PLAYER, visualType := ProjectileVisual.SWORD, targetId := none }

/-- Witness for C1 at a concrete projectile, id and trace. -/
theorem player_projectile_damages_each_enemy_at_most_once_witness :
    "e1" ∉ sampleSwordProj.hitIds
    ∧ countHitsOn "e1" (projectileRun sampleSwordProj []) ≤ 1 :=
  ⟨by simp [sampleSwordProj],
   player_projectile_damages_each_enemy_at_most_once sampleSwordProj [] "e1"
     (by simp [sampleSwordProj])⟩

/-- The cleanup decision of a tick, routed through the owner branch. -/
theorem projectileTick_proj_eq (tin : ProjTickIn) (p : Projectile) :
    (projectileTick tin p).proj =
      if shouldRemove (projectileAfterInteractions tin p) then none
      else some (projectileAfterInteractions tin p) := by
  cases ho : p.owner
  · rw [projectileTick_player_eq tin p ho]
    unfold projectileAfterInteractions
    rw [ho]
  · rw [projectileTick_enemy_eq tin p ho]
    unfold projectileAfterInteractions
    rw [ho]

/-- C2: at the cleanup line that ends the projectile pass of a tick, a
projectile is removed exactly when its (already decremented) duration is at
most 0, or its pierce is at most 0, or it is not orbiting and its position
lies beyond the 100 unit margin around the 5000 by 5000 world; an orbiting
projectile is never removed for leaving bounds. -/
theorem projectile_removed_iff (tin : ProjTickIn) (p : Projectile) :
    (projectileTick tin p).proj = none ↔
      ((projectileAfterInteractions tin p).duration ≤ 0
       ∨ (projectileAfterInteractions tin p).pierce ≤ 0
       ∨ ((projectileAfterInteractions tin p).isOrbiting = false
          ∧ ((projectileAfterInteractions tin p).pos.x < -100
             ∨ (projectileAfterInteractions tin p).pos.x > WORLD_WIDTH + 100
             ∨ (projectileAfterInteractions tin p).pos.y < -100
             ∨ (projectileAfterInteractions tin p).pos.y > WORLD_HEIGHT + 100))) := by
  rw [projectileTick_proj_eq]
  by_cases hrem : shouldRemove (projectileAfterInteractions tin p)
  · rw [if_pos hrem]
    exact iff_of_true rfl hrem
  · rw [if_neg hrem]
    constructor
    · intro hcontra
      exact absurd hcontra (Option.some_ne_none _)
    · intro hcond
      exact absurd hcond hrem

/-- Whether a tick result carries a damage application to the player. -/
def isPlayerDamage : Option PlayerHitEvent → Bool
  | some (PlayerHitEvent.damaged _) => true
  | _ => false

/-- Number of ticks of a lifetime trace in which the player takes damage
from the projectile. -/
noncomputable def countPlayerDamage (trace : List ProjTickResult) : ℕ :=
  (trace.filter (fun r => isPlayerDamage r.playerHit)).length

/-- When a tick reports any player-hit outcome (dodge or damage), the
projectile is removed by the cleanup line of the same tick, because both
branches force pierce to 0. -/
theorem projectileTick_playerHit_some_removed (tin : ProjTickIn) (p : Projectile)
    (ev : PlayerHitEvent) (h : (projectileTick tin p).playerHit = some ev) :
    (projectileTick tin p).proj = none := by
  cases ho : p.owner
  · rw [projectileTick_player_eq tin p ho] at h
    cases h
  · rw [projectileTick_enemy_eq tin p ho] at h ⊢
    by_cases hc : checkCollision (projPre tin p).pos (projPre tin p).radius
        tin.player.pos tin.player.radius
    · have hp0 : (resolveEnemyProjectile (projPre tin p) tin.player tin.dodgeRoll).1.pierce
          = 0 := by
        unfold resolveEnemyProjectile
        rw [if_pos hc]
        by_cases hd : tin.dodgeRoll < tin.player.stats.dodgeChance
        · rw [if_pos hd]
        · rw [if_neg hd]
      have hrem :
          shouldRemove (resolveEnemyProjectile (projPre tin p) tin.player tin.dodgeRoll).1 :=
        Or.inr (Or.inl (by rw [hp0]))
      rw [if_pos hrem]
    · have hnone :
          (resolveEnemyProjectile (projPre tin p) tin.player tin.dodgeRoll).2.2 = none := by
        unfold resolveEnemyProjectile
        rw [if_neg hc]
      rw [hnone] at h
      cases h

/-- C9: an enemy-owned projectile damages the player at most once over its
whole lifetime regardless of its pierce value, because on its first overlap
with the player the resolver forces pierce to 0 in the dodge branch and in
the damage branch alike, so the projectile (the boss shockwave with pierce
999 included) is destroyed at its first player contact. -/
theorem enemy_projectile_damages_player_at_most_once
    (p : Projectile) (ins : List ProjTickIn) :
    countPlayerDamage (projectileRun p ins) ≤ 1
    ∧ (∀ (q : Projectile) (pl : Player) (roll : ℝ),
        checkCollision q.pos q.radius pl.pos pl.radius →
        (resolveEnemyProjectile q pl roll).1.pierce = 0) := by
  constructor
  · induction ins generalizing p with
    | nil => simp [projectileRun, countPlayerDamage]
    | cons tin rest ih =>
        cases hproj : (projectileTick tin p).proj with
        | none =>
            have heq : projectileRun p (tin :: rest) = [projectileTick tin p] := by
              simp [projectileRun, hproj]
            rw [heq]
            unfold countPlayerDamage
            cases hb : isPlayerDamage (projectileTick tin p).playerHit <;> simp [hb]
        | some p2 =>
            have heq : projectileRun p (tin :: rest)
                = projectileTick tin p :: projectileRun p2 rest := by
              simp [projectileRun, hproj]
            rw [heq]
            have hfalse : isPlayerDamage (projectileTick tin p).playerHit = false := by
              cases hph : (projectileTick tin p).playerHit with
              | none => rfl
              | some ev =>
                  have := projectileTick_playerHit_some_removed tin p ev hph
                  rw [hproj] at this
                  cases this
            unfold countPlayerDamage
            rw [List.filter_cons_of_neg (by simp [hfalse])]
            exact ih p2
  · intro q pl roll hc
    unfold resolveEnemyProjectile
    rw [if_pos hc]
    by_cases hd : roll < pl.stats.dodgeChance
    · rw [if_pos hd]
    · rw [if_neg hd]

/-- The shockwave projectile the boss emits, as created by the BOSS branch
of updateEnemyBehavior (src/unnamed/part_001 lines 117 to 130) for the base
boss damage 30, placed at the starting position. -/
noncomputable def sampleShockwave : Projectile :=
  { pos := ⟨2500, 2500⟩, radius := 120, rotation := 0, damage := 45,
    velocity := ⟨0, 0⟩, duration := 20, pierce := 999, hitIds := ∅,
    isOrbiting := false, orbitAngle := 0, orbitDistance := 0,
    owner := Owner.ENEMY, visualType := ProjectileVisual.SHOCKWAVE, targetId := none }

/-- Witness for C9: the boss shockwave with pierce 999 overlapping the
player has its pierce forced to 0 by the resolver. -/
theorem enemy_projectile_damages_player_at_most_once_witness :
    checkCollision sampleShockwave.pos sampleShockwave.radius samplePlayer.pos samplePlayer.radius
    ∧ (resolveEnemyProjectile sampleShockwave samplePlayer 0.5).1.pierce = 0 := by
  have hc : checkCollision sampleShockwave.pos sampleShockwave.radius
      samplePlayer.pos samplePlayer.radius := by
    simp only [sampleShockwave, samplePlayer, checkCollision, getDistance]
    norm_num
  exact ⟨hc,
    (enemy_projectile_damages_player_at_most_once sampleShockwave []).2
      sampleShockwave samplePlayer 0.5 hc⟩

/-- A spirit dagger projectile at the starting position with the default
dagger damage, as created by createProjectile for SPIRIT_DAGGER. -/
noncomputable def sampleDagger : Projectile :=
  { pos := ⟨2500, 2500⟩, radius := 8, rotation := 0, damage := 20,
    velocity := ⟨12, 0⟩, duration := 90, pierce := 1, hitIds := ∅,
    isOrbiting := false, orbitAngle := 0, orbitDistance := 0,
    owner := Owner.PLAYER, visualType := ProjectileVisual.DAGGER, targetId := none }

/-- A freshly spawned peasant enemy overlapping the starting position. -/
noncomputable def samplePeasant : Enemy :=
  { id := "e1", pos := ⟨2500, 2500⟩, radius := 22, rotation := 0,
    etype := EnemyType.PEASANT, hp := 30, maxHp := 30, damage := 5, speed := 2,
    isElite := false, state := AIState.CHASING, stateTimer := 0,
    targetPos := none, flashTimer := 0 }

/-- Counterexample to C5: on a first overlap with the crit roll 0.05 (a
successful 10 percent crit), the resolver subtracts only the base damage 20
from the enemy hp (30 becomes 10) while the displayed number is the doubled
40; the hp the claim predicts, 30 minus 2 times 20, is not reached. -/
theorem crit_doubles_applied_damage_counterexample :
    (resolvePlayerHit sampleDagger samplePeasant 0.05).2.1.hp = 10
    ∧ (resolvePlayerHit sampleDagger samplePeasant 0.05).2.2 =
        some { targetId := "e1", applied := 20, displayed := 40, isCrit := true }
    ∧ ¬ ((resolvePlayerHit sampleDagger samplePeasant 0.05).2.1.hp
          = samplePeasant.hp - 2 * sampleDagger.damage) := by
  have hmem : samplePeasant.id ∉ sampleDagger.hitIds := by
    simp [sampleDagger, samplePeasant]
  have hcol : checkCollision sampleDagger.pos sampleDagger.radius
      samplePeasant.pos samplePeasant.radius := by
    simp only [sampleDagger, samplePeasant, checkCollision, getDistance]
    norm_num
  have h1 := resolvePlayerHit_hit sampleDagger samplePeasant 0.05 hmem hcol
  refine ⟨?_, ?_, ?_⟩
  · rw [h1]
    simp [sampleDagger, samplePeasant]
    norm_num
  · rw [h1]
    have hlt : (0.05 : ℝ) < 0.1 := by norm_num
    simp only [sampleDagger, samplePeasant, Option.some.injEq, DamageEvent.mk.injEq,
      if_pos hlt, decide_eq_true_eq]
    norm_num
  · rw [h1]
    simp [sampleDagger, samplePeasant]

/-- C5 amended: on every first overlap of a player projectile with an
enemy, the resolver rolls the fixed 10 percent crit independently per pair,
and a successful crit doubles only the displayed damage number; the damage
applied to the enemy hp is the base projectile damage whatever the roll. -/
theorem crit_doubles_only_displayed_damage
    (p : Projectile) (e : Enemy) (r : ℝ)
    (hmem : e.id ∉ p.hitIds)
    (hcol : checkCollision p.pos p.radius e.pos e.radius) :
    (resolvePlayerHit p e r).2.1.hp = e.hp - p.damage
    ∧ (resolvePlayerHit p e r).2.2 =
        some { targetId := e.id, applied := p.damage,
               displayed := if r < 0.1 then p.damage * 2 else p.damage,
               isCrit := decide (r < 0.1) }
    ∧ (∀ r2 : ℝ, (resolvePlayerHit p e r).2.1.hp = (resolvePlayerHit p e r2).2.1.hp) := by
  have h1 := resolvePlayerHit_hit p e r hmem hcol
  refine ⟨by rw [h1], by rw [h1], ?_⟩
  intro r2
  have h2 := resolvePlayerHit_hit p e r2 hmem hcol
  rw [h1, h2]

/-- Witness for the amended C5 at a concrete non-crit roll. -/
theorem crit_doubles_only_displayed_damage_witness :
    samplePeasant.id ∉ sampleDagger.hitIds
    ∧ checkCollision sampleDagger.pos sampleDagger.radius samplePeasant.pos samplePeasant.radius
    ∧ (resolvePlayerHit sampleDagger samplePeasant 0.5).2.1.hp
        = samplePeasant.hp - sampleDagger.damage := by
  have hmem : samplePeasant.id ∉ sampleDagger.hitIds := by
    simp [sampleDagger, samplePeasant]
  have hcol : checkCollision sampleDagger.pos sampleDagger.radius
      samplePeasant.pos samplePeasant.radius := by
    simp only [sampleDagger, samplePeasant, checkCollision, getDistance]
    norm_num
  exact ⟨hmem, hcol,
    (crit_doubles_only_displayed_damage sampleDagger samplePeasant 0.5 hmem hcol).1⟩

/-- Sections 11 and the final clamp of updateGame
(src/components/GameCanvas.tsx lines 654 to 669): activate frenzy when the
resource reaches the threshold while inactive; while active subtract the
drain (rate divided by the frenzy efficiency stat), subtract 1 percent of
max hp on frames divisible by 30, and deactivate when the drained resource
is at or below zero; finally clamp the resource from above by its maximum
(there is no clamp from below in the source). -/
noncomputable def frenzyStep (pl : Player) (frameMod30 : Bool) : Player :=
  let pl1 := if pl.isFrenzy = false ∧ pl.bloodEssence ≥ FRENZY_THRESHOLD
             then { pl with isFrenzy := true, frenzyTimer := 0 } else pl
  let pl2 := if pl1.isFrenzy = true then
      let drain := FRENZY_DRAIN_RATE / pl1.stats.frenzyEfficiency
      let e2 := pl1.bloodEssence - drain
      let hp2 := if frameMod30 = true then pl1.hp - pl1.maxHp * 0.01 else pl1.hp
      { pl1 with bloodEssence := e2, hp := hp2,
                 isFrenzy := if e2 ≤ 0 then false else true }
    else pl1
  { pl2 with bloodEssence := min pl2.bloodEssence pl2.maxBloodEssence }

/-- Closed form of the frenzy section for an already active player. -/
theorem frenzyStep_active_eq (pl : Player) (b : Bool) (h : pl.isFrenzy = true) :
    frenzyStep pl b =
      { pl with
          bloodEssence :=
            min (pl.bloodEssence - FRENZY_DRAIN_RATE / pl.stats.frenzyEfficiency)
                pl.maxBloodEssence,
          hp := if b = true then pl.hp - pl.maxHp * 0.01 else pl.hp,
          isFrenzy :=
            if pl.bloodEssence - FRENZY_DRAIN_RATE / pl.stats.frenzyEfficiency ≤ 0
            then false else true } := by
  have hcond : ¬ (pl.isFrenzy = false ∧ pl.bloodEssence ≥ FRENZY_THRESHOLD) := by
    simp [h]
  simp only [frenzyStep]
  rw [if_neg hcond, if_pos h]

/-- Closed form of the frenzy section for an inactive player crossing the
threshold: frenzy turns on and the drain applies in the same tick. -/
theorem frenzyStep_activation_eq (pl : Player) (b : Bool)
    (h1 : pl.isFrenzy = false) (h2 : pl.bloodEssence ≥ FRENZY_THRESHOLD) :
    frenzyStep pl b =
      { pl with
          frenzyTimer := 0,
          bloodEssence :=
            min (pl.bloodEssence - FRENZY_DRAIN_RATE / pl.stats.frenzyEfficiency)
                pl.maxBloodEssence,
          hp := if b = true then pl.hp - pl.maxHp * 0.01 else pl.hp,
          isFrenzy :=
            if pl.bloodEssence - FRENZY_DRAIN_RATE / pl.stats.frenzyEfficiency ≤ 0
            then false else true } := by
  have hcond : pl.isFrenzy = false ∧ pl.bloodEssence ≥ FRENZY_THRESHOLD := ⟨h1, h2⟩
  simp only [frenzyStep]
  rw [if_pos hcond, if_pos rfl]

/-- Closed form of the frenzy section for an inactive player below the
threshold: only the top clamp applies. -/
theorem frenzyStep_inactive_eq (pl : Player) (b : Bool)
    (h1 : pl.isFrenzy = false) (h2 : ¬ pl.bloodEssence ≥ FRENZY_THRESHOLD) :
    frenzyStep pl b = { pl with bloodEssence := min pl.bloodEssence pl.maxBloodEssence } := by
  have hcond : ¬ (pl.isFrenzy = false ∧ pl.bloodEssence ≥ FRENZY_THRESHOLD) := by
    intro hc
    exact h2 hc.2
  have hfalse : ¬ (pl.isFrenzy = true) := by
    simp [h1]
  simp only [frenzyStep]
  rw [if_neg hcond, if_neg hfalse]

/-- A player in frenzy whose resource is about to cross zero. -/
noncomputable def sampleFrenzyPlayer : Player :=
  { samplePlayer with isFrenzy := true, bloodEssence := 0.2 }

/-- Counterexample to C3: a frenzy tick from the resource value 0.2 with the
default efficiency 1 subtracts the drain 0.5 and leaves bloodEssence at
-0.3, strictly below 0; the final clamp of the section only caps the value
from above, so the claimed lower bound 0 does not hold. -/
theorem blood_essence_goes_negative_counterexample :
    sampleFrenzyPlayer.bloodEssence = 0.2
    ∧ sampleFrenzyPlayer.isFrenzy = true
    ∧ (frenzyStep sampleFrenzyPlayer false).bloodEssence = -0.3
    ∧ (frenzyStep sampleFrenzyPlayer false).bloodEssence < 0 := by
  have h : sampleFrenzyPlayer.isFrenzy = true := rfl
  have heq := frenzyStep_active_eq sampleFrenzyPlayer false h
  refine ⟨rfl, rfl, ?_, ?_⟩
  · rw [heq]
    simp only [sampleFrenzyPlayer, samplePlayer, FRENZY_DRAIN_RATE]
    rw [min_eq_left (by norm_num)]
    norm_num
  · rw [heq]
    simp only [sampleFrenzyPlayer, samplePlayer, FRENZY_DRAIN_RATE]
    rw [min_eq_left (by norm_num)]
    norm_num

/-- C3 amended: per frenzy tick, the resource never ends above its maximum
(the section clamps it from above); whenever frenzy is active at the end of
a tick the resource is strictly positive; an active frenzy deactivates in a
tick exactly when the drained resource reaches zero or below; and the
resource loses at most one drain amount (rate 0.5 divided by the frenzy
efficiency) per tick, so it can dip below zero only at the deactivation
tick and only by less than one drain. -/
theorem frenzy_step_spec (pl : Player) (b : Bool)
    (hEff : 0 < pl.stats.frenzyEfficiency)
    (hE : pl.bloodEssence ≤ pl.maxBloodEssence) :
    (frenzyStep pl b).bloodEssence ≤ pl.maxBloodEssence
    ∧ ((frenzyStep pl b).isFrenzy = true → 0 < (frenzyStep pl b).bloodEssence)
    ∧ (pl.isFrenzy = true →
        ((frenzyStep pl b).isFrenzy = false ↔
          pl.bloodEssence - FRENZY_DRAIN_RATE / pl.stats.frenzyEfficiency ≤ 0))
    ∧ pl.bloodEssence - FRENZY_DRAIN_RATE / pl.stats.frenzyEfficiency
        ≤ (frenzyStep pl b).bloodEssence := by
  have hdrain : 0 < FRENZY_DRAIN_RATE / pl.stats.frenzyEfficiency := by
    apply div_pos _ hEff
    norm_num [FRENZY_DRAIN_RATE]
  cases hfr : pl.isFrenzy with
  | true =>
      have heq := frenzyStep_active_eq pl b hfr
      rw [heq]
      set d := FRENZY_DRAIN_RATE / pl.stats.frenzyEfficiency with hd
      have hmin : min (pl.bloodEssence - d) pl.maxBloodEssence = pl.bloodEssence - d := by
        apply min_eq_left
        linarith
      refine ⟨?_, ?_, ?_, ?_⟩
      · exact min_le_right _ _
      · intro hact
        by_cases hz : pl.bloodEssence - d ≤ 0
        · rw [if_pos hz] at hact
          cases hact
        · rw [hmin]
          linarith [not_le.mp hz]
      · intro _
        by_cases hz : pl.bloodEssence - d ≤ 0
        · rw [if_pos hz]
          exact iff_of_true rfl hz
        · rw [if_neg hz]
          constructor
          · intro hcontra
            cases hcontra
          · intro hcond
            exact absurd hcond hz
      · rw [hmin]
  | false =>
      by_cases hth : pl.bloodEssence ≥ FRENZY_THRESHOLD
      · have heq := frenzyStep_activation_eq pl b hfr hth
        rw [heq]
        set d := FRENZY_DRAIN_RATE / pl.stats.frenzyEfficiency with hd
        have hmin : min (pl.bloodEssence - d) pl.maxBloodEssence = pl.bloodEssence - d := by
          apply min_eq_left
          linarith
        refine ⟨?_, ?_, ?_, ?_⟩
        · exact min_le_right _ _
        · intro hact
          by_cases hz : pl.bloodEssence - d ≤ 0
          · rw [if_pos hz] at hact
            cases hact
          · rw [hmin]
            linarith [not_le.mp hz]
        · intro hcontra
          simp [hfr] at hcontra
        · rw [hmin]
      · have heq := frenzyStep_inactive_eq pl b hfr hth
        rw [heq]
        have hmin : min pl.bloodEssence pl.maxBloodEssence = pl.bloodEssence :=
          min_eq_left hE
        refine ⟨?_, ?_, ?_, ?_⟩
        · exact min_le_right _ _
        · intro hact
          simp [hfr] at hact
        · intro hcontra
          simp [hfr] at hcontra
        · rw [hmin]
          linarith

/-- Witness for the amended C3 at the concrete frenzy player. -/
theorem frenzy_step_spec_witness :
    0 < sampleFrenzyPlayer.stats.frenzyEfficiency
    ∧ sampleFrenzyPlayer.bloodEssence ≤ sampleFrenzyPlayer.maxBloodEssence
    ∧ (frenzyStep sampleFrenzyPlayer false).bloodEssence
        ≤ sampleFrenzyPlayer.maxBloodEssence := by
  have h1 : (0 : ℝ) < sampleFrenzyPlayer.stats.frenzyEfficiency := by
    norm_num [sampleFrenzyPlayer, samplePlayer]
  have h3 : sampleFrenzyPlayer.bloodEssence ≤ sampleFrenzyPlayer.maxBloodEssence := by
    norm_num [sampleFrenzyPlayer, samplePlayer]
  exact ⟨h1, h3, (frenzy_step_spec sampleFrenzyPlayer false h1 h3).1⟩

/-- Contact damage of the enemy loop, section 3 of updateGame
(src/components/GameCanvas.tsx lines 359 to 382): on body overlap, only on
frames divisible by 30, roll the dodge chance; on a failed dodge subtract
the enemy contact damage from the player hp (no clamp). -/
noncomputable def contactDamageStep (pl : Player) (e : Enemy) (frameMod30 : Bool)
    (dodgeRoll : ℝ) : Player :=
  if checkCollision pl.pos pl.radius e.pos e.radius then
    if frameMod30 = true then
      if dodgeRoll < pl.stats.dodgeChance then pl
      else { pl with hp := pl.hp - e.damage }
    else pl
  else pl

/-- Application of a picked-up blood orb, the innermost branch of section 7
of updateGame (src/components/GameCanvas.tsx lines 595 to 601): experience
and blood essence grow by the drop value, and hp regenerates by 0.5 only
when it is strictly below the maximum. -/
noncomputable def pickupApply (pl : Player) (value : ℝ) : Player :=
  let pl1 := { pl with exp := pl.exp + value * pl.stats.expMultiplier,
                       bloodEssence := pl.bloodEssence + value }
  if pl1.hp < pl1.maxHp then { pl1 with hp := pl1.hp + 0.5 } else pl1

/-- Game-over condition of section 12 of updateGame
(src/components/GameCanvas.tsx lines 671 to 675). -/
def gameOverTriggered (pl : Player) : Prop :=
  pl.hp ≤ 0

/-- A player one contact hit away from death. -/
noncomputable def lowHpPlayer : Player :=
  { samplePlayer with hp := 10 }

/-- A charger enemy (base contact damage 15) overlapping the player. -/
noncomputable def sampleCharger : Enemy :=
  { id := "e2", pos := ⟨2500, 2500⟩, radius := 30, rotation := 0,
    etype := EnemyType.CHARGER, hp := 160, maxHp := 160, damage := 15, speed := 1.5,
    isElite := false, state := AIState.CHASING, stateTimer := 0,
    targetPos := none, flashTimer := 0 }

/-- Counterexample to C4: a contact hit of damage 15 on a player at hp 10
with dodge chance 0 leaves hp at -5, strictly below the claimed lower bound
0 (the same tick then triggers game over, but the stored hp is negative). -/
theorem hp_goes_negative_counterexample :
    lowHpPlayer.hp = 10
    ∧ (contactDamageStep lowHpPlayer sampleCharger true 0.5).hp = -5
    ∧ (contactDamageStep lowHpPlayer sampleCharger true 0.5).hp < 0
    ∧ gameOverTriggered (contactDamageStep lowHpPlayer sampleCharger true 0.5) := by
  have hcol : checkCollision lowHpPlayer.pos lowHpPlayer.radius
      sampleCharger.pos sampleCharger.radius := by
    simp only [lowHpPlayer, samplePlayer, sampleCharger, checkCollision, getDistance]
    norm_num
  have hdodge : ¬ ((0.5 : ℝ) < lowHpPlayer.stats.dodgeChance) := by
    norm_num [lowHpPlayer, samplePlayer]
  have heq : (contactDamageStep lowHpPlayer sampleCharger true 0.5).hp
      = lowHpPlayer.hp - sampleCharger.damage := by
    unfold contactDamageStep
    rw [if_pos hcol, if_pos rfl, if_neg hdodge]
  refine ⟨rfl, ?_, ?_, ?_⟩
  · rw [heq]
    norm_num [lowHpPlayer, samplePlayer, sampleCharger]
  · rw [heq]
    norm_num [lowHpPlayer, samplePlayer, sampleCharger]
  · show (contactDamageStep lowHpPlayer sampleCharger true 0.5).hp ≤ 0
    rw [heq]
    norm_num [lowHpPlayer, samplePlayer, sampleCharger]

/-- C4 amended: the pickup regeneration cannot push hp above maxHp as long
as hp and maxHp lie on the half-integer grid that every hp change of the
game preserves (all spawned contact damages are half-integers, the frenzy
drain is 1 percent of the fixed maxHp 100, regeneration is 0.5); damage
steps never increase hp; but there is no lower clamp: a lethal hit leaves
hp below 0, and the end-of-tick game-over check fires exactly when hp is at
or below 0. -/
theorem hp_bounds_amended (pl : Player) (v : ℝ) (e : Enemy) (b : Bool) (roll : ℝ)
    (hHalf : ∃ n : ℤ, pl.hp = n / 2)
    (hHalfMax : ∃ m : ℤ, pl.maxHp = m / 2)
    (hUb : pl.hp ≤ pl.maxHp)
    (hDmg : 0 ≤ e.damage) :
    (pickupApply pl v).hp ≤ pl.maxHp
    ∧ (contactDamageStep pl e b roll).hp ≤ pl.hp
    ∧ (gameOverTriggered (contactDamageStep pl e b roll) ↔
        (contactDamageStep pl e b roll).hp ≤ 0) := by
  obtain ⟨n, hn⟩ := hHalf
  obtain ⟨m, hm⟩ := hHalfMax
  refine ⟨?_, ?_, Iff.rfl⟩
  · unfold pickupApply
    by_cases hlt : pl.hp < pl.maxHp
    · rw [if_pos hlt]
      show pl.hp + 0.5 ≤ pl.maxHp
      rw [hn, hm] at hlt ⊢
      have hnm : n < m := by
        have := (div_lt_div_iff_of_pos_right (by norm_num : (0:ℝ) < 2)).mp hlt
        exact_mod_cast this
      have hsucc : n + 1 ≤ m := hnm
      have : ((n : ℝ) + 1) / 2 ≤ (m : ℝ) / 2 := by
        apply div_le_div_of_nonneg_right _ (by norm_num)  
        exact_mod_cast hsucc
      linarith
    · rw [if_neg hlt]
      show pl.hp ≤ pl.maxHp
      exact hUb
  · unfold contactDamageStep
    by_cases hcol : checkCollision pl.pos pl.radius e.pos e.radius
    · rw [if_pos hcol]
      by_cases hb : b = true
      · rw [if_pos hb]
        by_cases hd : roll < pl.stats.dodgeChance
        · rw [if_pos hd]
        · rw [if_neg hd]
          show pl.hp - e.damage ≤ pl.hp
          linarith
      · rw [if_neg hb]
    · rw [if_neg hcol]

/-- Witness for the amended C4 at the starting player and a peasant. -/
theorem hp_bounds_amended_witness :
    (∃ n : ℤ, samplePlayer.hp = n / 2)
    ∧ (∃ m : ℤ, samplePlayer.maxHp = m / 2)
    ∧ samplePlayer.hp ≤ samplePlayer.maxHp
    ∧ 0 ≤ samplePeasant.damage
    ∧ (pickupApply samplePlayer 1).hp ≤ samplePlayer.maxHp := by
  have h1 : ∃ n : ℤ, samplePlayer.hp = n / 2 := ⟨200, by norm_num [samplePlayer]⟩
  have h2 : ∃ m : ℤ, samplePlayer.maxHp = m / 2 := ⟨200, by norm_num [samplePlayer]⟩
  have h3 : samplePlayer.hp ≤ samplePlayer.maxHp := by norm_num [samplePlayer]
  have h4 : (0 : ℝ) ≤ samplePeasant.damage := by norm_num [samplePeasant]
  exact ⟨h1, h2, h3, h4,
    (hp_bounds_amended samplePlayer 1 samplePeasant true 0.5 h1 h2 h3 h4).1⟩

/-- Projectile speed of the spirit dagger (WEAPON_DEFAULTS in
src/unnamed/part_000). -/
def spiritDaggerSpeed : ℝ := 12

/-- Projectile speed of the kunai fan (WEAPON_DEFAULTS). -/
def kunaiSpeed : ℝ := 15

/-- Projectile speed of the blade slash (WEAPON_DEFAULTS). -/
def bladeSpeed : ℝ := 6

/-- Lifetime of a guqin note mine (WEAPON_DEFAULTS). -/
def guqinDuration : ℤ := 300

/-- Lifetime of a staff orbital (WEAPON_DEFAULTS). -/
def staffDuration : ℤ := 60

/-- The running minimum scan of the nearest-enemy loops of createProjectile:
walk the enemy list keeping the current best candidate and the running
minimum distance, replacing them whenever a strictly smaller distance
appears.  Starting the minimum at the search bound makes only enemies
strictly inside the bound eligible, exactly as the source loops do. -/
noncomputable def nearestScan (pos : Vec2) : List Enemy → Option Enemy → ℝ → Option Enemy × ℝ
  | [], best, minD => (best, minD)
  | e :: rest, best, minD =>
      if getDistance pos e.pos < minD then nearestScan pos rest (some e) (getDistance pos e.pos)
      else nearestScan pos rest best minD

/-- Nearest enemy strictly within a search bound, or none. -/
noncomputable def nearestWithin (pos : Vec2) (bound : ℝ) (es : List Enemy) : Option Enemy :=
  (nearestScan pos es none bound).1

/-- The weapon and projectile factory createProjectile of
src/unnamed/part_001 (lines 236 to 460).  The rng oracle supplies the
Math.random values in source order within a branch (the palm launch angle,
the guqin mine offsets); the cosmetic random id strings are not modelled.
Record fields that the source leaves undefined on a branch (orbit data,
homing target) are the absent defaults false, 0 and none. -/
noncomputable def createProjectile (player : Player) (weaponType : WeaponType)
    (enemies : List Enemy) (rng : ℕ → ℝ) : List Projectile :=
  match player.weapons.find? (fun w => decide (w.wtype = weaponType)) with
  | none => []
  | some weapon =>
    let mightMultiplier := player.stats.might * (if player.isFrenzy = true then 1.5 else 1)
    let damage := weapon.damage * mightMultiplier
    if weaponType = WeaponType.PALM_STRIKE then
      let angle := rng 0 * (2 * Real.pi)
      [{ pos := player.pos, radius := 35 * weapon.area, rotation := angle, damage := damage,
         velocity := ⟨Real.cos angle * 8, Real.sin angle * 8⟩,
         duration := 60, pierce := 999, hitIds := ∅, isOrbiting := false,
         orbitAngle := 0, orbitDistance := 0, owner := Owner.PLAYER,
         visualType := ProjectileVisual.PALM, targetId := none }]
    else if weaponType = WeaponType.SWORD_AURA then
      (List.range weapon.level).map (fun i =>
        { pos := player.pos, radius := 12, rotation := 0, damage := damage,
          velocity := ⟨0, 0⟩, duration := 180, pierce := 999, hitIds := ∅,
          isOrbiting := true, orbitAngle := (2 * Real.pi / (weapon.level : ℝ)) * (i : ℝ),
          orbitDistance := 100 * weapon.area, owner := Owner.PLAYER,
          visualType := ProjectileVisual.SWORD, targetId := none })
    else if weaponType = WeaponType.SPIRIT_DAGGER then
      let nearest := nearestWithin player.pos 600 enemies
      let start : Vec2 × Option String :=
        match nearest with
        | some e =>
            (normalizeVector ⟨e.pos.x - player.pos.x, e.pos.y - player.pos.y⟩, some e.id)
        | none => (⟨Real.cos player.rotation, Real.sin player.rotation⟩, none)
      [{ pos := player.pos, radius := 8, rotation := atan2 start.1.y start.1.x,
         damage := damage,
         velocity := ⟨start.1.x * spiritDaggerSpeed, start.1.y * spiritDaggerSpeed⟩,
         duration := 90, pierce := 1, hitIds := ∅, isOrbiting := false, orbitAngle := 0,
         orbitDistance := 0, owner := Owner.PLAYER, visualType := ProjectileVisual.DAGGER,
         targetId := start.2 }]
    else if weaponType = WeaponType.KUNAI then
      let targetAngle :=
        if enemies.length > 0 then
          match nearestWithin player.pos 400 enemies with
          | some e => atan2 (e.pos.y - player.pos.y) (e.pos.x - player.pos.x)
          | none => player.rotation
        else player.rotation
      let spread : ℝ := 0.3
      (List.range 3).map (fun i =>
        let angle := targetAngle - spread + spread * (i : ℝ)
        { pos := player.pos, radius := 6, rotation := angle, damage := damage * 0.8,
          velocity := ⟨Real.cos angle * kunaiSpeed, Real.sin angle * kunaiSpeed⟩,
          duration := 40, pierce := 1, hitIds := ∅, isOrbiting := false, orbitAngle := 0,
          orbitDistance := 0, owner := Owner.PLAYER, visualType := ProjectileVisual.KUNAI,
          targetId := none })
    else if weaponType = WeaponType.BLADE then
      let angle : ℝ := if player.rotation = Real.pi then Real.pi else 0
      [{ pos := ⟨player.pos.x + Real.cos angle * 30, player.pos.y⟩,
         radius := 40 * weapon.area, rotation := angle, damage := damage * 1.5,
         velocity := ⟨Real.cos angle * bladeSpeed, 0⟩, duration := 25, pierce := 999,
         hitIds := ∅, isOrbiting := false, orbitAngle := 0, orbitDistance := 0,
         owner := Owner.PLAYER, visualType := ProjectileVisual.SLASH, targetId := none }]
    else if weaponType = WeaponType.GUQIN then
      (List.range 2).map (fun i =>
        let range := 150 * weapon.area
        let rx := (rng (2 * i) - 0.5) * range
        let ry := (rng (2 * i + 1) - 0.5) * range
        { pos := ⟨player.pos.x + rx, player.pos.y + ry⟩, radius := 30, rotation := 0,
          damage := damage, velocity := ⟨0, 0⟩, duration := guqinDuration, pierce := 3,
          hitIds := ∅, isOrbiting := false, orbitAngle := 0, orbitDistance := 0,
          owner := Owner.PLAYER, visualType := ProjectileVisual.NOTE, targetId := none })
    else if weaponType = WeaponType.STAFF then
      [{ pos := player.pos, radius := 15, rotation := 0, damage := damage,
         velocity := ⟨0, 0⟩, duration := staffDuration, pierce := 999, hitIds := ∅,
         isOrbiting := true, orbitAngle := 0, orbitDistance := 60 * weapon.area,
         owner := Owner.PLAYER, visualType := ProjectileVisual.STAFF, targetId := none },
       { pos := player.pos, radius := 15, rotation := 0, damage := damage,
         velocity := ⟨0, 0⟩, duration := staffDuration, pierce := 999, hitIds := ∅,
         isOrbiting := true, orbitAngle := Real.pi, orbitDistance := 60 * weapon.area,
         owner := Owner.PLAYER, visualType := ProjectileVisual.STAFF, targetId := none }]
    else []

/-- Per-kind damage multiplier read off the branches of createProjectile:
the kunai fan fires at 0.8 times, the blade slash at 1.5 times, and every
other weapon at exactly the stored weapon damage times the might and frenzy
multipliers. -/
def weaponKindMultiplier : WeaponType → ℝ
  | WeaponType.KUNAI => 0.8
  | WeaponType.BLADE => 1.5
  | _ => 1

/-- C6 amended: every projectile produced by createProjectile carries
damage equal to the stored weapon damage times the might stat, times 1.5
under frenzy, times a per-kind multiplier (0.8 for the kunai fan, 1.5 for
the blade slash, 1 for every other kind); no weapon-level factor enters at
fire time. -/
theorem createProjectile_damage_formula (player : Player) (wt : WeaponType)
    (enemies : List Enemy) (rng : ℕ → ℝ) (w : Weapon)
    (hw : player.weapons.find? (fun u => decide (u.wtype = wt)) = some w) :
    ∀ pr ∈ createProjectile player wt enemies rng,
      pr.damage
        = w.damage * (player.stats.might * (if player.isFrenzy = true then 1.5 else 1))
          * weaponKindMultiplier wt := by
  intro pr hpr
  simp only [createProjectile, hw] at hpr
  cases wt with
  | PALM_STRIKE =>
      simp at hpr
      subst hpr
      simp [weaponKindMultiplier]
  | SWORD_AURA =>
      simp at hpr
      obtain ⟨i, hi, rfl⟩ := hpr
      simp [weaponKindMultiplier]
  | SPIRIT_DAGGER =>
      simp at hpr
      subst hpr
      simp [weaponKindMultiplier]
  | KUNAI =>
      simp at hpr
      obtain ⟨i, hi, rfl⟩ := hpr
      simp [weaponKindMultiplier]
  | BLADE =>
      simp at hpr
      subst hpr
      simp [weaponKindMultiplier]
  | GUQIN =>
      simp at hpr
      obtain ⟨i, hi, rfl⟩ := hpr
      simp [weaponKindMultiplier]
  | STAFF =>
      simp at hpr
      rcases hpr with rfl | rfl <;> simp [weaponKindMultiplier]
  | SOUND_WAVE =>
      simp at hpr
  | GOLDEN_BELL =>
      simp at hpr

/-- A player holding a kunai, a palm strike and a level 7 spirit dagger,
all with the same stored damage 10 and identical stats, out of frenzy. -/
noncomputable def dualWeaponPlayer : Player :=
  { samplePlayer with
      weapons := [{ wtype := WeaponType.KUNAI, level := 1, cooldownTimer := 0,
                    baseCooldown := 40, damage := 10, area := 1 },
                  { wtype := WeaponType.PALM_STRIKE, level := 1, cooldownTimer := 0,
                    baseCooldown := 45, damage := 10, area := 1 },
                  { wtype := WeaponType.SPIRIT_DAGGER, level := 7, cooldownTimer := 0,
                    baseCooldown := 30, damage := 10, area := 1 }] }

/-- Counterexample to C6: with identical stored damage 10, identical level
1, might 1 and no frenzy, the kunai shots carry damage 8 while the palm
shot carries damage 10, so no single formula in base damage, weapon level,
might and frenzy covers every weapon kind; and the level 7 spirit dagger
also carries exactly the stored damage 10, so no weapon-level scaling
factor is applied at fire time. -/
theorem damage_formula_counterexample :
    ((createProjectile dualWeaponPlayer WeaponType.KUNAI [] (fun _ => 0)).map
        Projectile.damage = [8, 8, 8])
    ∧ ((createProjectile dualWeaponPlayer WeaponType.PALM_STRIKE [] (fun _ => 0)).map
        Projectile.damage = [10])
    ∧ ((createProjectile dualWeaponPlayer WeaponType.SPIRIT_DAGGER [] (fun _ => 0)).map
        Projectile.damage = [10])
    ∧ (8 : ℝ) ≠ 10 := by
  have hwk : dualWeaponPlayer.weapons.find?
      (fun u => decide (u.wtype = WeaponType.KUNAI))
      = some { wtype := WeaponType.KUNAI, level := 1, cooldownTimer := 0,
               baseCooldown := 40, damage := 10, area := 1 } := rfl
  have hwp : dualWeaponPlayer.weapons.find?
      (fun u => decide (u.wtype = WeaponType.PALM_STRIKE))
      = some { wtype := WeaponType.PALM_STRIKE, level := 1, cooldownTimer := 0,
               baseCooldown := 45, damage := 10, area := 1 } := rfl
  have hwd : dualWeaponPlayer.weapons.find?
      (fun u => decide (u.wtype = WeaponType.SPIRIT_DAGGER))
      = some { wtype := WeaponType.SPIRIT_DAGGER, level := 7, cooldownTimer := 0,
               baseCooldown := 30, damage := 10, area := 1 } := rfl
  refine ⟨?_, ?_, ?_, by norm_num⟩
  · simp only [createProjectile, hwk]
    rw [if_neg (by decide : ¬ (WeaponType.KUNAI = WeaponType.PALM_STRIKE))]
    rw [if_neg (by decide : ¬ (WeaponType.KUNAI = WeaponType.SWORD_AURA))]
    rw [if_neg (by decide : ¬ (WeaponType.KUNAI = WeaponType.SPIRIT_DAGGER))]
    rw [if_pos trivial]
    norm_num [dualWeaponPlayer, samplePlayer, List.range_succ]
  · simp only [createProjectile, hwp]
    norm_num [dualWeaponPlayer, samplePlayer]
  · simp only [createProjectile, hwd]
    rw [if_neg (by decide : ¬ (WeaponType.SPIRIT_DAGGER = WeaponType.PALM_STRIKE))]
    rw [if_neg (by decide : ¬ (WeaponType.SPIRIT_DAGGER = WeaponType.SWORD_AURA))]
    rw [if_pos trivial]
    norm_num [dualWeaponPlayer, samplePlayer, nearestWithin, nearestScan]

/-- Witness for the amended C6: the first kunai shot of the concrete player
carries damage 10 times 1 times 0.8. -/
theorem createProjectile_damage_formula_witness :
    (dualWeaponPlayer.weapons.find?
        (fun u => decide (u.wtype = WeaponType.KUNAI)))
      = some { wtype := WeaponType.KUNAI, level := 1, cooldownTimer := 0,
               baseCooldown := 40, damage := 10, area := 1 }
    ∧ ∀ pr ∈ createProjectile dualWeaponPlayer WeaponType.KUNAI [] (fun _ => 0),
        pr.damage = 10 * (dualWeaponPlayer.stats.might
          * (if dualWeaponPlayer.isFrenzy = true then 1.5 else 1))
          * weaponKindMultiplier WeaponType.KUNAI := by
  have hw : (dualWeaponPlayer.weapons.find?
      (fun u => decide (u.wtype = WeaponType.KUNAI)))
      = some { wtype := WeaponType.KUNAI, level := 1, cooldownTimer := 0,
               baseCooldown := 40, damage := 10, area := 1 } := by
    simp [dualWeaponPlayer, samplePlayer, List.find?]
  exact ⟨hw, createProjectile_damage_formula dualWeaponPlayer WeaponType.KUNAI [] (fun _ => 0)
    { wtype := WeaponType.KUNAI, level := 1, cooldownTimer := 0,
      baseCooldown := 40, damage := 10, area := 1 } hw⟩

/-- A vector length is never negative. -/
theorem vecLen_nonneg (v : Vec2) : 0 ≤ vecLen v :=
  Real.sqrt_nonneg _

/-- Squaring the length recovers the sum of squared components. -/
theorem vecLen_mul_self (v : Vec2) : vecLen v * vecLen v = v.x * v.x + v.y * v.y :=
  Real.mul_self_sqrt (add_nonneg (mul_self_nonneg _) (mul_self_nonneg _))

/-- A vector of length zero has both components zero. -/
theorem vecLen_eq_zero (v : Vec2) (h : vecLen v = 0) : v.x = 0 ∧ v.y = 0 := by
  have h2 : v.x * v.x + v.y * v.y = 0 := by
    have h3 := vecLen_mul_self v
    rw [h] at h3
    linarith
  have hx : v.x * v.x = 0 := by nlinarith [mul_self_nonneg v.x, mul_self_nonneg v.y]
  have hy : v.y * v.y = 0 := by nlinarith [mul_self_nonneg v.x, mul_self_nonneg v.y]
  exact ⟨mul_self_eq_zero.mp hx, mul_self_eq_zero.mp hy⟩

/-- Normalizing a vector of nonzero length yields a unit vector. -/
theorem normalizeVector_vecLen (v : Vec2) (h : vecLen v ≠ 0) :
    vecLen (normalizeVector v) = 1 := by
  have hnn : (0 : ℝ) ≤ v.x * v.x + v.y * v.y :=
    add_nonneg (mul_self_nonneg _) (mul_self_nonneg _)
  unfold normalizeVector
  rw [if_neg h]
  unfold vecLen at h ⊢
  have hsum : v.x * v.x + v.y * v.y ≠ 0 := by
    intro h0
    rw [h0, Real.sqrt_zero] at h
    exact h rfl
  have hLL : Real.sqrt (v.x * v.x + v.y * v.y) * Real.sqrt (v.x * v.x + v.y * v.y)
      = v.x * v.x + v.y * v.y := Real.mul_self_sqrt hnn
  have hr : v.x / Real.sqrt (v.x * v.x + v.y * v.y)
        * (v.x / Real.sqrt (v.x * v.x + v.y * v.y))
      + v.y / Real.sqrt (v.x * v.x + v.y * v.y)
        * (v.y / Real.sqrt (v.x * v.x + v.y * v.y))
      = (v.x * v.x + v.y * v.y)
        / (Real.sqrt (v.x * v.x + v.y * v.y) * Real.sqrt (v.x * v.x + v.y * v.y)) := by
    ring
  rw [hr, hLL, div_self hsum, Real.sqrt_one]

/-- The length of a normalized vector is zero or one. -/
theorem normalizeVector_cases (v : Vec2) :
    vecLen (normalizeVector v) = 0 ∨ vecLen (normalizeVector v) = 1 := by
  by_cases h : vecLen v = 0
  · left
    unfold normalizeVector
    rw [if_pos h]
    unfold vecLen
    norm_num
  · right
    exact normalizeVector_vecLen v h

/-- Scaling both components scales the length by the absolute factor. -/
theorem vecLen_scale (a b s : ℝ) : vecLen ⟨a * s, b * s⟩ = vecLen ⟨a, b⟩ * |s| := by
  unfold vecLen
  have h : a * s * (a * s) + b * s * (b * s) = (a * a + b * b) * s ^ 2 := by ring
  rw [h, Real.sqrt_mul (add_nonneg (mul_self_nonneg a) (mul_self_nonneg b)),
    Real.sqrt_sq_eq_abs]

/-- The homing steer preserves the speed magnitude: the steered velocity is
a renormalized direction scaled by the previous speed, and the interpolated
direction cannot vanish when the previous velocity is nonzero. -/
theorem steerVelocity_speed (p : Projectile) (t : Enemy) :
    vecLen (steerVelocity p t) = vecLen p.velocity := by
  unfold steerVelocity
  have hspeed : Real.sqrt (p.velocity.x * p.velocity.x + p.velocity.y * p.velocity.y)
      = vecLen p.velocity := rfl
  rw [hspeed]
  rw [vecLen_scale]
  rw [abs_of_nonneg (vecLen_nonneg p.velocity)]
  by_cases hv : vecLen p.velocity = 0
  · rw [hv, mul_zero]
  · set cur := normalizeVector p.velocity with hcur
    set des := normalizeVector ⟨t.pos.x - p.pos.x, t.pos.y - p.pos.y⟩ with hdes
    have hcur1 : vecLen cur = 1 := normalizeVector_vecLen p.velocity hv
    have hcursq : cur.x * cur.x + cur.y * cur.y = 1 := by
      have h1 := vecLen_mul_self cur
      rw [hcur1] at h1
      linarith
    have hdessq : des.x * des.x + des.y * des.y ≤ 1 := by
      rcases normalizeVector_cases ⟨t.pos.x - p.pos.x, t.pos.y - p.pos.y⟩ with h1 | h1
      · have h2 := vecLen_mul_self des
        rw [← hdes] at h1
        rw [h1] at h2
        linarith
      · have h2 := vecLen_mul_self des
        rw [← hdes] at h1
        rw [h1] at h2
        linarith
    set newDir : Vec2 := ⟨cur.x + (des.x - cur.x) * 0.2, cur.y + (des.y - cur.y) * 0.2⟩
      with hnew
    have hnz : vecLen newDir ≠ 0 := by
      intro h0
      obtain ⟨h0x, h0y⟩ := vecLen_eq_zero newDir h0
      rw [hnew] at h0x h0y
      simp only at h0x h0y
      have hdx : des.x = -4 * cur.x := by linarith
      have hdy : des.y = -4 * cur.y := by linarith
      rw [hdx, hdy] at hdessq
      nlinarith
    rw [normalizeVector_vecLen newDir hnz, one_mul]

/-- Invariant of the running minimum scan: the final minimum never exceeds
the starting one and bounds every scanned distance; a returned candidate
realises the final minimum; and either nothing changed, or the candidate
comes from the list with a strictly smaller minimum than the start. -/
theorem nearestScan_spec (pos : Vec2) :
    ∀ (es : List Enemy) (best : Option Enemy) (minD : ℝ),
      (∀ b, best = some b → getDistance pos b.pos = minD) →
      ((nearestScan pos es best minD).2 ≤ minD
       ∧ (∀ e ∈ es, (nearestScan pos es best minD).2 ≤ getDistance pos e.pos)
       ∧ (∀ b, (nearestScan pos es best minD).1 = some b →
            getDistance pos b.pos = (nearestScan pos es best minD).2)
       ∧ ((nearestScan pos es best minD).1 = best ∧ (nearestScan pos es best minD).2 = minD
          ∨ ∃ e ∈ es, (nearestScan pos es best minD).1 = some e
              ∧ (nearestScan pos es best minD).2 < minD)) := by
  intro es
  induction es with
  | nil =>
      intro best minD hbest
      exact ⟨le_refl _, by simp, fun b hb => hbest b hb, Or.inl ⟨rfl, rfl⟩⟩
  | cons e rest ih =>
      intro best minD hbest
      by_cases hlt : getDistance pos e.pos < minD
      · have heq : nearestScan pos (e :: rest) best minD
            = nearestScan pos rest (some e) (getDistance pos e.pos) := by
          simp only [nearestScan, if_pos hlt]
        have hb2 : ∀ b, (some e : Option Enemy) = some b →
            getDistance pos b.pos = getDistance pos e.pos := by
          intro b hb
          cases hb
          rfl
        obtain ⟨h1, h2, h3, h4⟩ := ih (some e) (getDistance pos e.pos) hb2
        rw [heq]
        refine ⟨le_trans h1 (le_of_lt hlt), ?_, h3, ?_⟩
        · intro e2 he2
          rcases List.mem_cons.mp he2 with he2 | he2
          · rw [he2]
            exact h1
          · exact h2 e2 he2
        · rcases h4 with ⟨ha, hb⟩ | ⟨e2, he2, ha, hb⟩
          · right
            exact ⟨e, List.mem_cons_self e rest, ha, by rw [hb]; exact hlt⟩
          · right
            exact ⟨e2, List.mem_cons_of_mem e he2, ha, lt_trans hb hlt⟩
      · have heq : nearestScan pos (e :: rest) best minD
            = nearestScan pos rest best minD := by
          simp only [nearestScan, if_neg hlt]
        obtain ⟨h1, h2, h3, h4⟩ := ih best minD hbest
        rw [heq]
        refine ⟨h1, ?_, h3, ?_⟩
        · intro e2 he2
          rcases List.mem_cons.mp he2 with he2 | he2
          · rw [he2]
            exact le_trans h1 (not_lt.mp hlt)
          · exact h2 e2 he2
        · rcases h4 with ⟨ha, hb⟩ | ⟨e2, he2, ha, hb⟩
          · exact Or.inl ⟨ha, hb⟩
          · exact Or.inr ⟨e2, List.mem_cons_of_mem e he2, ha, hb⟩

/-- When the loop finds nobody, every enemy sits at or beyond the bound. -/
theorem nearestWithin_none (pos : Vec2) (bound : ℝ) (es : List Enemy)
    (h : nearestWithin pos bound es = none) :
    ∀ e ∈ es, bound ≤ getDistance pos e.pos := by
  have hspec := nearestScan_spec pos es none bound (by intro b hb; cases hb)
  obtain ⟨h1, h2, h3, h4⟩ := hspec
  rcases h4 with ⟨ha, hb⟩ | ⟨e2, he2, ha, hb⟩
  · intro e he
    have := h2 e he
    rw [hb] at this
    exact this
  · rw [nearestWithin] at h
    rw [h] at ha
    cases ha

/-- When the loop finds a target, it is a list member strictly inside the
bound whose distance is minimal among all list members. -/
theorem nearestWithin_some (pos : Vec2) (bound : ℝ) (es : List Enemy) (e : Enemy)
    (h : nearestWithin pos bound es = some e) :
    e ∈ es ∧ getDistance pos e.pos < bound
    ∧ ∀ e2 ∈ es, getDistance pos e.pos ≤ getDistance pos e2.pos := by
  have hspec := nearestScan_spec pos es none bound (by intro b hb; cases hb)
  obtain ⟨h1, h2, h3, h4⟩ := hspec
  rw [nearestWithin] at h
  rcases h4 with ⟨ha, hb⟩ | ⟨e2, he2, ha, hb⟩
  · rw [h] at ha
    cases ha
  · rw [h] at ha
    have he : e2 = e := by
      cases ha
      rfl
    subst he
    have hdist := h3 e2 h
    refine ⟨he2, ?_, ?_⟩
    · rw [hdist]
      exact hb
    · intro e3 he3
      rw [hdist]
      exact h2 e3 he3

/-- A homing dagger whose stored target id matches no live enemy is left
completely unchanged by the homing block. -/
theorem homingUpdate_miss (p : Projectile) (es : List Enemy) (tid : String)
    (htid : p.targetId = some tid)
    (hfind : es.find? (fun e2 => decide (e2.id = tid)) = none) :
    homingUpdate p es = p := by
  unfold homingUpdate
  rw [htid]
  by_cases hvis : p.visualType = ProjectileVisual.DAGGER
  · simp only [hvis, if_pos, hfind]
  · simp [hvis]

/-- A homing dagger whose stored target id matches a live enemy gets the
steered velocity and the matching rotation, and nothing else changes. -/
theorem homingUpdate_track (p : Projectile) (es : List Enemy) (tid : String) (target : Enemy)
    (hvis : p.visualType = ProjectileVisual.DAGGER)
    (htid : p.targetId = some tid)
    (hfind : es.find? (fun e2 => decide (e2.id = tid)) = some target) :
    homingUpdate p es =
      { p with velocity := steerVelocity p target,
               rotation := atan2 (steerVelocity p target).y (steerVelocity p target).x } := by
  unfold homingUpdate
  rw [htid]
  simp only [hvis, if_pos, hfind]

/-- Closed form of the SPIRIT_DAGGER branch of createProjectile. -/
theorem createProjectile_dagger_eq (player : Player) (enemies : List Enemy) (rng : ℕ → ℝ)
    (w : Weapon)
    (hw : player.weapons.find? (fun u => decide (u.wtype = WeaponType.SPIRIT_DAGGER))
      = some w) :
    createProjectile player WeaponType.SPIRIT_DAGGER enemies rng =
      (let start : Vec2 × Option String :=
        match nearestWithin player.pos 600 enemies with
        | some e =>
            (normalizeVector ⟨e.pos.x - player.pos.x, e.pos.y - player.pos.y⟩, some e.id)
        | none => (⟨Real.cos player.rotation, Real.sin player.rotation⟩, none)
      [{ pos := player.pos, radius := 8, rotation := atan2 start.1.y start.1.x,
         damage := w.damage * (player.stats.might * (if player.isFrenzy = true then 1.5 else 1)),
         velocity := ⟨start.1.x * spiritDaggerSpeed, start.1.y * spiritDaggerSpeed⟩,
         duration := 90, pierce := 1, hitIds := ∅, isOrbiting := false, orbitAngle := 0,
         orbitDistance := 0, owner := Owner.PLAYER, visualType := ProjectileVisual.DAGGER,
         targetId := start.2 }]) := by
  simp only [createProjectile, hw]
  rw [if_neg (by decide : ¬ (WeaponType.SPIRIT_DAGGER = WeaponType.PALM_STRIKE))]
  rw [if_neg (by decide : ¬ (WeaponType.SPIRIT_DAGGER = WeaponType.SWORD_AURA))]
  rw [if_pos trivial]

/-- C8: the spirit dagger acquires the nearest enemy strictly within 600
units at launch, storing its id and aiming at it with speed 12, and falls
back to the facing direction with no stored id when no enemy is in range;
on a tick where the stored id matches a live enemy the velocity is steered
toward it with the speed magnitude preserved; and on a tick where the id
matches no live enemy the homing block leaves the projectile unchanged, so
a non-orbiting projectile advances by exactly its velocity, continuing in a
straight line at its last heading for its remaining duration. -/
theorem homing_dagger_spec (player : Player) (enemies : List Enemy) (rng : ℕ → ℝ)
    (w : Weapon)
    (hw : player.weapons.find? (fun u => decide (u.wtype = WeaponType.SPIRIT_DAGGER))
      = some w) :
    (∀ e : Enemy, nearestWithin player.pos 600 enemies = some e →
        e ∈ enemies
        ∧ getDistance player.pos e.pos < 600
        ∧ (∀ e2 ∈ enemies, getDistance player.pos e.pos ≤ getDistance player.pos e2.pos)
        ∧ (createProjectile player WeaponType.SPIRIT_DAGGER enemies rng).length = 1
        ∧ (∀ pr ∈ createProjectile player WeaponType.SPIRIT_DAGGER enemies rng,
            pr.targetId = some e.id
            ∧ pr.velocity
              = ⟨(normalizeVector ⟨e.pos.x - player.pos.x, e.pos.y - player.pos.y⟩).x * 12,
                 (normalizeVector ⟨e.pos.x - player.pos.x, e.pos.y - player.pos.y⟩).y * 12⟩))
    ∧ (nearestWithin player.pos 600 enemies = none →
        (∀ e ∈ enemies, 600 ≤ getDistance player.pos e.pos)
        ∧ (createProjectile player WeaponType.SPIRIT_DAGGER enemies rng).length = 1
        ∧ (∀ pr ∈ createProjectile player WeaponType.SPIRIT_DAGGER enemies rng,
            pr.targetId = none
            ∧ pr.velocity = ⟨Real.cos player.rotation * 12, Real.sin player.rotation * 12⟩))
    ∧ (∀ (p : Projectile) (es : List Enemy) (tid : String) (target : Enemy),
        p.visualType = ProjectileVisual.DAGGER → p.targetId = some tid →
        es.find? (fun e2 => decide (e2.id = tid)) = some target →
        (homingUpdate p es).velocity = steerVelocity p target
        ∧ vecLen (homingUpdate p es).velocity = vecLen p.velocity)
    ∧ (∀ (p : Projectile) (es : List Enemy) (tid : String),
        p.targetId = some tid →
        es.find? (fun e2 => decide (e2.id = tid)) = none →
        homingUpdate p es = p)
    ∧ (∀ (tin : ProjTickIn) (p : Projectile) (tid : String),
        p.targetId = some tid → p.isOrbiting = false →
        (tin.enemies.map Prod.fst).find? (fun e2 => decide (e2.id = tid)) = none →
        (projPre tin p).velocity = p.velocity
        ∧ (projPre tin p).pos.x = p.pos.x + p.velocity.x
        ∧ (projPre tin p).pos.y = p.pos.y + p.velocity.y) := by
  refine ⟨?_, ?_, ?_, ?_, ?_⟩
  · intro e he
    obtain ⟨hmem, hlt, hmin⟩ := nearestWithin_some player.pos 600 enemies e he
    have heq := createProjectile_dagger_eq player enemies rng w hw
    simp only [he] at heq
    refine ⟨hmem, hlt, hmin, ?_, ?_⟩
    · rw [heq]
      rfl
    · intro pr hpr
      rw [heq] at hpr
      simp only [List.mem_singleton] at hpr
      subst hpr
      refine ⟨rfl, ?_⟩
      simp [spiritDaggerSpeed]
  · intro he
    have heq := createProjectile_dagger_eq player enemies rng w hw
    simp only [he] at heq
    refine ⟨nearestWithin_none player.pos 600 enemies he, ?_, ?_⟩
    · rw [heq]
      rfl
    · intro pr hpr
      rw [heq] at hpr
      simp only [List.mem_singleton] at hpr
      subst hpr
      refine ⟨rfl, ?_⟩
      simp [spiritDaggerSpeed]
  · intro p es tid target hvis htid hfind
    have heq := homingUpdate_track p es tid target hvis htid hfind
    rw [heq]
    exact ⟨rfl, steerVelocity_speed p target⟩
  · intro p es tid htid hfind
    exact homingUpdate_miss p es tid htid hfind
  · intro tin p tid htid horb hfind
    have h1 : homingUpdate p (tin.enemies.map Prod.fst) = p :=
      homingUpdate_miss p (tin.enemies.map Prod.fst) tid htid hfind
    have h2 : projMove tin.player.pos p
        = { p with pos := ⟨p.pos.x + p.velocity.x, p.pos.y + p.velocity.y⟩ } := by
      unfold projMove
      rw [if_neg (by simp [horb] : ¬ (p.isOrbiting = true))]
    unfold projPre
    simp only [h1, h2]
    exact ⟨trivial, trivial, trivial⟩

/-- Witness for C8: the concrete player with a spirit dagger, launched with
no enemy in range. -/
theorem homing_dagger_spec_witness :
    (dualWeaponPlayer.weapons.find? (fun u => decide (u.wtype = WeaponType.SPIRIT_DAGGER))
      = some { wtype := WeaponType.SPIRIT_DAGGER, level := 7, cooldownTimer := 0,
               baseCooldown := 30, damage := 10, area := 1 })
    ∧ nearestWithin dualWeaponPlayer.pos 600 [] = none
    ∧ (createProjectile dualWeaponPlayer WeaponType.SPIRIT_DAGGER [] (fun _ => 0)).length
        = 1 := by
  have hw : dualWeaponPlayer.weapons.find?
      (fun u => decide (u.wtype = WeaponType.SPIRIT_DAGGER))
      = some { wtype := WeaponType.SPIRIT_DAGGER, level := 7, cooldownTimer := 0,
               baseCooldown := 30, damage := 10, area := 1 } := rfl
  have hnone : nearestWithin dualWeaponPlayer.pos 600 [] = none := rfl
  exact ⟨hw, hnone,
    ((homing_dagger_spec dualWeaponPlayer [] (fun _ => 0) _ hw).2.1 hnone).2.1⟩

/-- The per-enemy AI update updateEnemyBehavior of src/unnamed/part_001
(lines 88 to 234): orientation flip, then the boss shockwave-and-chase
behaviour, the four-state charger machine, the three-band archer with its
shot timer, and the default melee chase.  The JS falsy guards on the timers
(a value of exactly 0 counts as unset) and on the locked target components
are written out.  The rng oracle supplies the Math.random values of the
tick (the charger trigger roll, the initial archer timer); the cosmetic
visual-effect pushes (warning line, shockwave ring) and the random id
strings are not modelled. -/
noncomputable def updateEnemyBehavior (enemy : Enemy) (player : Player) (rng : ℕ → ℝ) :
    Enemy × List Projectile :=
  let dx := player.pos.x - enemy.pos.x
  let dy := player.pos.y - enemy.pos.y
  let dist := Real.sqrt (dx * dx + dy * dy)
  let dir := normalizeVector ⟨dx, dy⟩
  let e0 : Enemy := { enemy with rotation := if dx < 0 then Real.pi else 0 }
  if e0.etype = EnemyType.BOSS then
    let t0 : ℝ := if e0.stateTimer = 0 then 180 else e0.stateTimer
    let t1 := t0 - 1
    if t1 ≤ 0 then
      ({ e0 with stateTimer := 240,
                 pos := ⟨e0.pos.x + dir.x * e0.speed, e0.pos.y + dir.y * e0.speed⟩ },
       [{ pos := e0.pos, radius := 120, rotation := 0, damage := e0.damage * 1.5,
          velocity := ⟨0, 0⟩, duration := 20, pierce := 999, hitIds := ∅,
          isOrbiting := false, orbitAngle := 0, orbitDistance := 0, owner := Owner.ENEMY,
          visualType := ProjectileVisual.SHOCKWAVE, targetId := none }])
    else
      ({ e0 with stateTimer := t1,
                 pos := ⟨e0.pos.x + dir.x * e0.speed, e0.pos.y + dir.y * e0.speed⟩ }, [])
  else if e0.etype = EnemyType.CHARGER then
    if e0.state = AIState.CHASING then
      let e1 : Enemy :=
        { e0 with pos := ⟨e0.pos.x + dir.x * e0.speed, e0.pos.y + dir.y * e0.speed⟩ }
      if dist < 300 ∧ dist > 100 ∧ rng 0 < 0.02 then
        ({ e1 with state := AIState.PREPARING, stateTimer := 40,
                   targetPos := some player.pos }, [])
      else (e1, [])
    else if e0.state = AIState.PREPARING then
      let t1 := e0.stateTimer - 1
      if t1 ≤ 0 then ({ e0 with state := AIState.CHARGING, stateTimer := 30 }, [])
      else ({ e0 with stateTimer := t1 }, [])
    else if e0.state = AIState.CHARGING then
      let tx : ℝ := match e0.targetPos with
        | some tp => if tp.x = 0 then player.pos.x else tp.x
        | none => player.pos.x
      let ty : ℝ := match e0.targetPos with
        | some tp => if tp.y = 0 then player.pos.y else tp.y
        | none => player.pos.y
      let chargeDir := normalizeVector ⟨tx - e0.pos.x, ty - e0.pos.y⟩
      let e1 : Enemy :=
        { e0 with pos := ⟨e0.pos.x + chargeDir.x * 12, e0.pos.y + chargeDir.y * 12⟩ }
      let t1 := e0.stateTimer - 1
      if t1 ≤ 0 then ({ e1 with state := AIState.COOLDOWN, stateTimer := 60 }, [])
      else ({ e1 with stateTimer := t1 }, [])
    else if e0.state = AIState.COOLDOWN then
      let t1 := e0.stateTimer - 1
      if t1 ≤ 0 then ({ e0 with state := AIState.CHASING, stateTimer := t1 }, [])
      else ({ e0 with stateTimer := t1 }, [])
    else (e0, [])
  else if e0.etype = EnemyType.ARCHER then
    let e1 : Enemy :=
      if dist < 200 then
        { e0 with pos := ⟨e0.pos.x - dir.x * e0.speed, e0.pos.y - dir.y * e0.speed⟩ }
      else if dist > 400 then
        { e0 with pos := ⟨e0.pos.x + dir.x * e0.speed, e0.pos.y + dir.y * e0.speed⟩ }
      else
        { e0 with pos := ⟨e0.pos.x + -dir.y * e0.speed * 0.5,
                          e0.pos.y + dir.x * e0.speed * 0.5⟩ }
    let t0 : ℝ := if e1.stateTimer = 0 then 100 + rng 0 * 60 else e1.stateTimer
    let t1 := t0 - 1
    if t1 ≤ 0 then
      ({ e1 with stateTimer := 180 },
       [{ pos := e1.pos, radius := 8, rotation := atan2 dir.y dir.x,
          damage := e1.damage, velocity := ⟨dir.x * 6, dir.y * 6⟩, duration := 120,
          pierce := 1, hitIds := ∅, isOrbiting := false, orbitAngle := 0,
          orbitDistance := 0, owner := Owner.ENEMY, visualType := ProjectileVisual.ARROW,
          targetId := none }])
    else ({ e1 with stateTimer := t1 }, [])
  else
    ({ e0 with pos := ⟨e0.pos.x + dir.x * e0.speed, e0.pos.y + dir.y * e0.speed⟩ }, [])

/-- One tick of a charger in PREPARING: it holds position and target, its
timer counts down, and it transitions to CHARGING with a 30 tick timer
exactly when the decremented timer reaches zero or below. -/
theorem charger_preparing_tick (e : Enemy) (pl : Player) (rng : ℕ → ℝ)
    (ht : e.etype = EnemyType.CHARGER) (hs : e.state = AIState.PREPARING) :
    (updateEnemyBehavior e pl rng).1.etype = EnemyType.CHARGER
    ∧ (updateEnemyBehavior e pl rng).1.pos = e.pos
    ∧ (updateEnemyBehavior e pl rng).1.targetPos = e.targetPos
    ∧ (¬ (e.stateTimer - 1 ≤ 0) →
        (updateEnemyBehavior e pl rng).1.state = AIState.PREPARING
        ∧ (updateEnemyBehavior e pl rng).1.stateTimer = e.stateTimer - 1)
    ∧ (e.stateTimer - 1 ≤ 0 →
        (updateEnemyBehavior e pl rng).1.state = AIState.CHARGING
        ∧ (updateEnemyBehavior e pl rng).1.stateTimer = 30) := by
  have hb : ¬ (e.etype = EnemyType.BOSS) := by rw [ht]; decide
  have hc : ¬ (e.state = AIState.CHASING) := by rw [hs]; decide
  simp only [updateEnemyBehavior]
  rw [if_neg hb, if_pos ht, if_neg hc, if_pos hs]
  by_cases htm : e.stateTimer - 1 ≤ 0
  · rw [if_pos htm]
    exact ⟨ht, rfl, rfl, fun hcon => absurd htm hcon, fun _ => ⟨rfl, rfl⟩⟩
  · rw [if_neg htm]
    exact ⟨ht, rfl, rfl, fun _ => ⟨hs, rfl⟩, fun hcon => absurd hcon htm⟩

/-- One tick of a charger in CHARGING with a locked nonzero target: it
moves by exactly 12 units in the unit direction of the locked target
(independently of the player), keeps the target, and transitions to
COOLDOWN with a 60 tick timer exactly when the decremented timer reaches
zero or below. -/
theorem charger_charging_tick (e : Enemy) (pl : Player) (rng : ℕ → ℝ) (t : Vec2)
    (ht : e.etype = EnemyType.CHARGER) (hs : e.state = AIState.CHARGING)
    (htp : e.targetPos = some t) (htx : t.x ≠ 0) (hty : t.y ≠ 0) :
    (updateEnemyBehavior e pl rng).1.etype = EnemyType.CHARGER
    ∧ (updateEnemyBehavior e pl rng).1.targetPos = some t
    ∧ (updateEnemyBehavior e pl rng).1.pos.x
        = e.pos.x + (normalizeVector ⟨t.x - e.pos.x, t.y - e.pos.y⟩).x * 12
    ∧ (updateEnemyBehavior e pl rng).1.pos.y
        = e.pos.y + (normalizeVector ⟨t.x - e.pos.x, t.y - e.pos.y⟩).y * 12
    ∧ (¬ (e.stateTimer - 1 ≤ 0) →
        (updateEnemyBehavior e pl rng).1.state = AIState.CHARGING
        ∧ (updateEnemyBehavior e pl rng).1.stateTimer = e.stateTimer - 1)
    ∧ (e.stateTimer - 1 ≤ 0 →
        (updateEnemyBehavior e pl rng).1.state = AIState.COOLDOWN
        ∧ (updateEnemyBehavior e pl rng).1.stateTimer = 60) := by
  have hb : ¬ (e.etype = EnemyType.BOSS) := by rw [ht]; decide
  have hc : ¬ (e.state = AIState.CHASING) := by rw [hs]; decide
  have hp : ¬ (e.state = AIState.PREPARING) := by rw [hs]; decide
  simp only [updateEnemyBehavior]
  rw [if_neg hb, if_pos ht, if_neg hc, if_neg hp, if_pos hs]
  simp only [htp]
  rw [if_neg htx, if_neg hty]
  by_cases htm : e.stateTimer - 1 ≤ 0
  · rw [if_pos htm]
    exact ⟨ht, rfl, rfl, rfl, fun hcon => absurd htm hcon, fun _ => ⟨rfl, rfl⟩⟩
  · rw [if_neg htm]
    exact ⟨ht, rfl, rfl, rfl, fun _ => ⟨hs, rfl⟩, fun hcon => absurd hcon htm⟩

/-- One tick of a charger in COOLDOWN: it holds position and target, the
timer counts down, and it returns to CHASING exactly when the decremented
timer reaches zero or below. -/
theorem charger_cooldown_tick (e : Enemy) (pl : Player) (rng : ℕ → ℝ)
    (ht : e.etype = EnemyType.CHARGER) (hs : e.state = AIState.COOLDOWN) :
    (updateEnemyBehavior e pl rng).1.etype = EnemyType.CHARGER
    ∧ (updateEnemyBehavior e pl rng).1.pos = e.pos
    ∧ (updateEnemyBehavior e pl rng).1.targetPos = e.targetPos
    ∧ (¬ (e.stateTimer - 1 ≤ 0) →
        (updateEnemyBehavior e pl rng).1.state = AIState.COOLDOWN
        ∧ (updateEnemyBehavior e pl rng).1.stateTimer = e.stateTimer - 1)
    ∧ (e.stateTimer - 1 ≤ 0 →
        (updateEnemyBehavior e pl rng).1.state = AIState.CHASING) := by
  have hb : ¬ (e.etype = EnemyType.BOSS) := by rw [ht]; decide
  have hc : ¬ (e.state = AIState.CHASING) := by rw [hs]; decide
  have hp : ¬ (e.state = AIState.PREPARING) := by rw [hs]; decide
  have hch : ¬ (e.state = AIState.CHARGING) := by rw [hs]; decide
  simp only [updateEnemyBehavior]
  rw [if_neg hb, if_pos ht, if_neg hc, if_neg hp, if_neg hch, if_pos hs]
  by_cases htm : e.stateTimer - 1 ≤ 0
  · rw [if_pos htm]
    exact ⟨ht, rfl, rfl, fun hcon => absurd htm hcon, fun _ => rfl⟩
  · rw [if_neg htm]
    exact ⟨ht, rfl, rfl, fun _ => ⟨hs, rfl⟩, fun hcon => absurd hcon htm⟩

/-- Iterated AI update of one enemy against arbitrary per-tick player
snapshots and random oracles. -/
noncomputable def enemyIter (players : ℕ → Player) (rngs : ℕ → ℕ → ℝ) (e : Enemy) :
    ℕ → Enemy
  | 0 => e
  | k + 1 => (updateEnemyBehavior (enemyIter players rngs e k) (players k) (rngs k)).1

/-- C7: a charger that has just entered PREPARING (timer 40, target locked
at a nonzero snapshot position) deterministically walks, for every choice
of player positions and random draws, through exactly 40 PREPARING ticks,
then 30 CHARGING ticks, then 60 COOLDOWN ticks, and returns to CHASING on
tick 130; no other transition out of these states occurs on the trace; the
locked target is kept throughout, the enemy holds position while
PREPARING, and each CHARGING tick moves it by the unit direction of the
locked snapshot scaled by the fixed speed 12 (a formula independent of the
player), covering exactly distance 12 whenever it is not already at the
snapshot. -/
theorem charger_fsm_trace (players : ℕ → Player) (rngs : ℕ → ℕ → ℝ)
    (e0 : Enemy) (t : Vec2)
    (htype : e0.etype = EnemyType.CHARGER)
    (hstate : e0.state = AIState.PREPARING)
    (htimer : e0.stateTimer = 40)
    (htarget : e0.targetPos = some t)
    (htx : t.x ≠ 0) (hty : t.y ≠ 0) :
    (∀ k, k < 40 → (enemyIter players rngs e0 k).state = AIState.PREPARING)
    ∧ (∀ k, 40 ≤ k → k < 70 → (enemyIter players rngs e0 k).state = AIState.CHARGING)
    ∧ (∀ k, 70 ≤ k → k < 130 → (enemyIter players rngs e0 k).state = AIState.COOLDOWN)
    ∧ (enemyIter players rngs e0 130).state = AIState.CHASING
    ∧ (∀ k, k < 40 → (enemyIter players rngs e0 k).pos = e0.pos)
    ∧ (∀ k, k ≤ 130 → (enemyIter players rngs e0 k).targetPos = some t)
    ∧ (∀ k, 40 ≤ k → k < 70 →
        (enemyIter players rngs e0 (k + 1)).pos.x
          = (enemyIter players rngs e0 k).pos.x
            + (normalizeVector
                ⟨t.x - (enemyIter players rngs e0 k).pos.x,
                 t.y - (enemyIter players rngs e0 k).pos.y⟩).x * 12
        ∧ (enemyIter players rngs e0 (k + 1)).pos.y
          = (enemyIter players rngs e0 k).pos.y
            + (normalizeVector
                ⟨t.x - (enemyIter players rngs e0 k).pos.x,
                 t.y - (enemyIter players rngs e0 k).pos.y⟩).y * 12)
    ∧ (∀ k, 40 ≤ k → k < 70 →
        ¬ ((enemyIter players rngs e0 k).pos.x = t.x
            ∧ (enemyIter players rngs e0 k).pos.y = t.y) →
        getDistance (enemyIter players rngs e0 (k + 1)).pos
            (enemyIter players rngs e0 k).pos = 12) := by
  set F := enemyIter players rngs e0 with hF
  have hsucc : ∀ k, F (k + 1) = (updateEnemyBehavior (F k) (players k) (rngs k)).1 :=
    fun k => rfl
  have hprep : ∀ k, k ≤ 39 →
      (F k).etype = EnemyType.CHARGER ∧ (F k).state = AIState.PREPARING
      ∧ (F k).stateTimer = 40 - (k : ℝ) ∧ (F k).pos = e0.pos
      ∧ (F k).targetPos = some t := by
    intro k
    induction k with
    | zero =>
        intro _
        have hF0 : F 0 = e0 := rfl
        rw [hF0]
        exact ⟨htype, hstate, by rw [htimer]; norm_num, rfl, htarget⟩
    | succ k ih =>
        intro hk
        have hk38 : k ≤ 38 := by omega
        obtain ⟨h1, h2, h3, h4, h5⟩ := ih (by omega)
        have hstep := charger_preparing_tick (F k) (players k) (rngs k) h1 h2
        have htm : ¬ ((F k).stateTimer - 1 ≤ 0) := by
          rw [h3]
          have hcast : (k : ℝ) ≤ 38 := by exact_mod_cast hk38
          linarith
        have hrun := hstep.2.2.2.1 htm
        rw [hsucc k]
        refine ⟨hstep.1, hrun.1, ?_, ?_, ?_⟩
        · rw [hrun.2, h3]
          push_cast
          ring
        · rw [hstep.2.1]
          exact h4
        · rw [hstep.2.2.1]
          exact h5
  have h40 : (F 40).etype = EnemyType.CHARGER ∧ (F 40).state = AIState.CHARGING
      ∧ (F 40).stateTimer = 30 ∧ (F 40).pos = e0.pos ∧ (F 40).targetPos = some t := by
    obtain ⟨h1, h2, h3, h4, h5⟩ := hprep 39 (by omega)
    have hstep := charger_preparing_tick (F 39) (players 39) (rngs 39) h1 h2
    have htm : (F 39).stateTimer - 1 ≤ 0 := by
      rw [h3]
      norm_num
    have hexp := hstep.2.2.2.2 htm
    rw [show (40 : ℕ) = 39 + 1 from rfl, hsucc 39]
    refine ⟨hstep.1, hexp.1, hexp.2, ?_, ?_⟩
    · rw [hstep.2.1]
      exact h4
    · rw [hstep.2.2.1]
      exact h5
  have hcharge : ∀ j, j ≤ 29 →
      (F (40 + j)).etype = EnemyType.CHARGER ∧ (F (40 + j)).state = AIState.CHARGING
      ∧ (F (40 + j)).stateTimer = 30 - (j : ℝ)
      ∧ (F (40 + j)).targetPos = some t := by
    intro j
    induction j with
    | zero =>
        intro _
        have hq : (40 : ℕ) + 0 = 40 := rfl
        rw [hq]
        exact ⟨h40.1, h40.2.1, by rw [h40.2.2.1]; norm_num, h40.2.2.2.2⟩
    | succ j ih =>
        intro hj
        have hj28 : j ≤ 28 := by omega
        obtain ⟨h1, h2, h3, h4⟩ := ih (by omega)
        have hstep := charger_charging_tick (F (40 + j)) (players (40 + j)) (rngs (40 + j))
          t h1 h2 h4 htx hty
        have htm : ¬ ((F (40 + j)).stateTimer - 1 ≤ 0) := by
          rw [h3]
          have hcast : (j : ℝ) ≤ 28 := by exact_mod_cast hj28
          linarith
        have hrun := hstep.2.2.2.2.1 htm
        rw [show 40 + (j + 1) = (40 + j) + 1 from rfl, hsucc (40 + j)]
        refine ⟨hstep.1, hrun.1, ?_, hstep.2.1⟩
        rw [hrun.2, h3]
        push_cast
        ring
  have h70 : (F 70).etype = EnemyType.CHARGER ∧ (F 70).state = AIState.COOLDOWN
      ∧ (F 70).stateTimer = 60 ∧ (F 70).targetPos = some t := by
    obtain ⟨h1, h2, h3, h4⟩ := hcharge 29 (by omega)
    have hstep := charger_charging_tick (F (40 + 29)) (players (40 + 29)) (rngs (40 + 29))
      t h1 h2 h4 htx hty
    have htm : (F (40 + 29)).stateTimer - 1 ≤ 0 := by
      rw [h3]
      norm_num
    have hexp := hstep.2.2.2.2.2 htm
    rw [show (70 : ℕ) = (40 + 29) + 1 from rfl, hsucc (40 + 29)]
    exact ⟨hstep.1, hexp.1, hexp.2, hstep.2.1⟩
  have hcool : ∀ j, j ≤ 59 →
      (F (70 + j)).etype = EnemyType.CHARGER ∧ (F (70 + j)).state = AIState.COOLDOWN
      ∧ (F (70 + j)).stateTimer = 60 - (j : ℝ)
      ∧ (F (70 + j)).targetPos = some t := by
    intro j
    induction j with
    | zero =>
        intro _
        have hq : (70 : ℕ) + 0 = 70 := rfl
        rw [hq]
        exact ⟨h70.1, h70.2.1, by rw [h70.2.2.1]; norm_num, h70.2.2.2⟩
    | succ j ih =>
        intro hj
        have hj58 : j ≤ 58 := by omega
        obtain ⟨h1, h2, h3, h4⟩ := ih (by omega)
        have hstep := charger_cooldown_tick (F (70 + j)) (players (70 + j)) (rngs (70 + j))
          h1 h2
        have htm : ¬ ((F (70 + j)).stateTimer - 1 ≤ 0) := by
          rw [h3]
          have hcast : (j : ℝ) ≤ 58 := by exact_mod_cast hj58
          linarith
        have hrun := hstep.2.2.2.1 htm
        rw [show 70 + (j + 1) = (70 + j) + 1 from rfl, hsucc (70 + j)]
        refine ⟨hstep.1, hrun.1, ?_, ?_⟩
        · rw [hrun.2, h3]
          push_cast
          ring
        · rw [hstep.2.2.1]
          exact h4
  have h130 : (F 130).state = AIState.CHASING ∧ (F 130).targetPos = some t := by
    obtain ⟨h1, h2, h3, h4⟩ := hcool 59 (by omega)
    have hstep := charger_cooldown_tick (F (70 + 59)) (players (70 + 59)) (rngs (70 + 59))
      h1 h2
    have htm : (F (70 + 59)).stateTimer - 1 ≤ 0 := by
      rw [h3]
      norm_num
    rw [show (130 : ℕ) = (70 + 59) + 1 from rfl, hsucc (70 + 59)]
    refine ⟨hstep.2.2.2.2 htm, ?_⟩
    rw [hstep.2.2.1]
    exact h4
  have hmove : ∀ k, 40 ≤ k → k < 70 →
      (F (k + 1)).pos.x
        = (F k).pos.x + (normalizeVector ⟨t.x - (F k).pos.x, t.y - (F k).pos.y⟩).x * 12
      ∧ (F (k + 1)).pos.y
        = (F k).pos.y + (normalizeVector ⟨t.x - (F k).pos.x, t.y - (F k).pos.y⟩).y * 12 := by
    intro k hk40 hk70
    obtain ⟨h1, h2, h3, h4⟩ := by
      have hj : k - 40 ≤ 29 := by omega
      have := hcharge (k - 40) hj
      rwa [show 40 + (k - 40) = k from by omega] at this
    have hstep := charger_charging_tick (F k) (players k) (rngs k) t h1 h2 h4 htx hty
    rw [hsucc k]
    exact ⟨hstep.2.2.1, hstep.2.2.2.1⟩
  refine ⟨?_, ?_, ?_, h130.1, ?_, ?_, hmove, ?_⟩
  · intro k hk
    exact (hprep k (by omega)).2.1
  · intro k hk40 hk70
    have hj : k - 40 ≤ 29 := by omega
    have := hcharge (k - 40) hj
    rw [show 40 + (k - 40) = k from by omega] at this
    exact this.2.1
  · intro k hk70 hk130
    have hj : k - 70 ≤ 59 := by omega
    have := hcool (k - 70) hj
    rw [show 70 + (k - 70) = k from by omega] at this
    exact this.2.1
  · intro k hk
    exact (hprep k (by omega)).2.2.2.1
  · intro k hk
    by_cases h39 : k ≤ 39
    · exact (hprep k h39).2.2.2.2
    · by_cases h69 : k ≤ 69
      · have hj : k - 40 ≤ 29 := by omega
        have := hcharge (k - 40) hj
        rw [show 40 + (k - 40) = k from by omega] at this
        exact this.2.2.2
      · by_cases h129 : k ≤ 129
        · have hj : k - 70 ≤ 59 := by omega
          have := hcool (k - 70) hj
          rw [show 70 + (k - 70) = k from by omega] at this
          exact this.2.2.2
        · have hk130 : k = 130 := by omega
          rw [hk130]
          exact h130.2
  · intro k hk40 hk70 hne
    obtain ⟨hmx, hmy⟩ := hmove k hk40 hk70
    have hdnz : vecLen ⟨t.x - (F k).pos.x, t.y - (F k).pos.y⟩ ≠ 0 := by
      intro h0
      obtain ⟨hx0, hy0⟩ := vecLen_eq_zero _ h0
      simp only at hx0 hy0
      exact hne ⟨by linarith, by linarith⟩
    have hn1 : vecLen (normalizeVector ⟨t.x - (F k).pos.x, t.y - (F k).pos.y⟩) = 1 :=
      normalizeVector_vecLen _ hdnz
    have hX : (F (k + 1)).pos.x - (F k).pos.x
        = (normalizeVector ⟨t.x - (F k).pos.x, t.y - (F k).pos.y⟩).x * 12 := by
      rw [hmx]
      ring
    have hY : (F (k + 1)).pos.y - (F k).pos.y
        = (normalizeVector ⟨t.x - (F k).pos.x, t.y - (F k).pos.y⟩).y * 12 := by
      rw [hmy]
      ring
    show vecLen ⟨(F (k + 1)).pos.x - (F k).pos.x, (F (k + 1)).pos.y - (F k).pos.y⟩ = 12
    rw [hX, hY, vecLen_scale, hn1]
    norm_num

/-- A charger that has just locked its target and entered PREPARING. -/
noncomputable def preparingCharger : Enemy :=
  { id := "e3", pos := ⟨2100, 2100⟩, radius := 30, rotation := 0,
    etype := EnemyType.CHARGER, hp := 160, maxHp := 160, damage := 15, speed := 1.5,
    isElite := false, state := AIState.PREPARING, stateTimer := 40,
    targetPos := some ⟨2500, 2500⟩, flashTimer := 0 }

/-- Witness for C7 at a concrete preparing charger against a constant player
snapshot and constant random draws: the hypotheses hold, the trace is in
CHARGING at tick 40 and back in CHASING at tick 130. -/
theorem charger_fsm_trace_witness :
    (preparingCharger.etype = EnemyType.CHARGER
      ∧ preparingCharger.state = AIState.PREPARING
      ∧ preparingCharger.stateTimer = 40
      ∧ preparingCharger.targetPos = some ⟨2500, 2500⟩
      ∧ (Vec2.mk 2500 2500).x ≠ 0 ∧ (Vec2.mk 2500 2500).y ≠ 0)
    ∧ (enemyIter (fun _ => samplePlayer) (fun _ _ => 0.5) preparingCharger 40).state
        = AIState.CHARGING
    ∧ (enemyIter (fun _ => samplePlayer) (fun _ _ => 0.5) preparingCharger 130).state
        = AIState.CHASING := by
  have h := charger_fsm_trace (fun _ => samplePlayer) (fun _ _ => 0.5)
    preparingCharger ⟨2500, 2500⟩ rfl rfl rfl rfl
    (by show (2500 : ℝ) ≠ 0; norm_num) (by show (2500 : ℝ) ≠ 0; norm_num)
  exact ⟨⟨rfl, rfl, rfl, rfl, by show (2500 : ℝ) ≠ 0; norm_num,
      by show (2500 : ℝ) ≠ 0; norm_num⟩,
    h.2.1 40 (by norm_num) (by norm_num), h.2.2.2.1⟩
